import Mathlib

/-!
Verification of the toad terminal-emulation engine (`src/toad/ansi.py`).

The Python source is shallowly embedded: pure functions become Lean
functions, stateful methods become explicit state-passing functions, and
Python exceptions (`ValueError` from `int`, `KeyError`, `IndexError`)
become `Except Unit` errors.  Strings are modelled as `List Char`.
`textual.content.Content` (an external library type) is modelled as the
list of display cells of the content, one `Char` per cell; styling inside
a `Content` is not observed by any property proved here.  The style
algebra of `textual.style.Style` is modelled with the fields the engine
uses, `a + b` keeping each field of `b` that is set and falling back to
`a` otherwise.
-/

deriving instance DecidableEq for Except

namespace Toad

/-- Model of `textual.color.Color`: an rgb triple plus the optional `ansi`
index.  The fields are `Int` because the engine can construct colors from
unvalidated SGR parameters. -/
structure Color where
  red : Int
  green : Int
  blue : Int
  ansi : Option Int
deriving DecidableEq, Repr

/-- Model of `textual.style.Style` restricted to the fields `ansi.py`
uses. Every field is optional ("not set"). -/
structure StyleM where
  bold : Option Bool
  dim : Option Bool
  italic : Option Bool
  underline : Option Bool
  underline2 : Option Bool
  blink : Option Bool
  reverse : Option Bool
  strike : Option Bool
  foreground : Option Color
  background : Option Color
  link : Option (List Char)
deriving DecidableEq, Repr

/-- `NULL_STYLE`: the style with nothing set. -/
def NULL_STYLE : StyleM :=
  ⟨none, none, none, none, none, none, none, none, none, none, none⟩

/-- Combine two optional fields: the right side wins when it is set. -/
def ov {α : Type} (a b : Option α) : Option α :=
  match b with
  | some x => some x
  | none => a

/-- `Style.__add__`: fields of the right operand override when set. -/
def StyleM.add (a b : StyleM) : StyleM :=
  ⟨ov a.bold b.bold, ov a.dim b.dim, ov a.italic b.italic,
    ov a.underline b.underline, ov a.underline2 b.underline2,
    ov a.blink b.blink, ov a.reverse b.reverse, ov a.strike b.strike,
    ov a.foreground b.foreground, ov a.background b.background,
    ov a.link b.link⟩

/-- Style with one boolean attribute set (helper for `SGR_STYLE_MAP`). -/
def styBold (b : Bool) : StyleM := { NULL_STYLE with bold := some b }

def styDim (b : Bool) : StyleM := { NULL_STYLE with dim := some b }

def styItalic (b : Bool) : StyleM := { NULL_STYLE with italic := some b }

def styUnderline (b : Bool) : StyleM := { NULL_STYLE with underline := some b }

def styUnderline2 (b : Bool) : StyleM := { NULL_STYLE with underline2 := some b }

def styBlink (b : Bool) : StyleM := { NULL_STYLE with blink := some b }

def styReverse (b : Bool) : StyleM := { NULL_STYLE with reverse := some b }

def styStrike (b : Bool) : StyleM := { NULL_STYLE with strike := some b }

def styFg (c : Color) : StyleM := { NULL_STYLE with foreground := some c }

def styBg (c : Color) : StyleM := { NULL_STYLE with background := some c }

/-- A 16-color palette entry `Color(r, g, b, ansi=n)`. -/
def c16 (r g b : Int) (n : Int) : Color := ⟨r, g, b, some n⟩

/-- `SGR_STYLE_MAP` from `ansi.py`, as a function from the SGR code.
Codes `22` and `26` set two / repeated attributes exactly as the source
does; codes mapped to `NULL_STYLE` in the source (28, 51-55) are mapped
to `NULL_STYLE` here as well (adding `NULL_STYLE` is the identity, which
also matches the falsy-`Style` skip in the source walrus test). -/
def sgrStyleMap (code : Int) : Option StyleM :=
  match code with
  | 1 => some (styBold true)
  | 2 => some (styDim true)
  | 3 => some (styItalic true)
  | 4 => some (styUnderline true)
  | 5 => some (styBlink true)
  | 6 => some (styBlink true)
  | 7 => some (styReverse true)
  | 8 => some (styReverse true)
  | 9 => some (styStrike true)
  | 21 => some (styUnderline2 true)
  | 22 => some ((styDim false).add (styBold false))
  | 23 => some (styItalic false)
  | 24 => some (styUnderline false)
  | 25 => some (styBlink false)
  | 26 => some (styBlink false)
  | 27 => some (styReverse false)
  | 28 => some NULL_STYLE
  | 29 => some (styStrike false)
  | 30 => some (styFg (c16 0 0 0 0))
  | 31 => some (styFg (c16 128 0 0 1))
  | 32 => some (styFg (c16 0 128 0 2))
  | 33 => some (styFg (c16 128 128 0 3))
  | 34 => some (styFg (c16 0 0 128 4))
  | 35 => some (styFg (c16 128 0 128 5))
  | 36 => some (styFg (c16 0 128 128 6))
  | 37 => some (styFg (c16 192 192 192 7))
  | 39 => some (styFg (c16 0 0 0 (-1)))
  | 40 => some (styBg (c16 0 0 0 0))
  | 41 => some (styBg (c16 128 0 0 1))
  | 42 => some (styBg (c16 0 128 0 2))
  | 43 => some (styBg (c16 128 128 0 3))
  | 44 => some (styBg (c16 0 0 128 4))
  | 45 => some (styBg (c16 128 0 128 5))
  | 46 => some (styBg (c16 0 128 128 6))
  | 47 => some (styBg (c16 192 192 192 7))
  | 49 => some (styBg (c16 0 0 0 (-1)))
  | 51 => some NULL_STYLE
  | 52 => some NULL_STYLE
  | 53 => some NULL_STYLE
  | 54 => some NULL_STYLE
  | 55 => some NULL_STYLE
  | 90 => some (styFg (c16 128 128 128 8))
  | 91 => some (styFg (c16 255 0 0 9))
  | 92 => some (styFg (c16 0 255 0 10))
  | 93 => some (styFg (c16 255 255 0 11))
  | 94 => some (styFg (c16 0 0 255 12))
  | 95 => some (styFg (c16 255 0 255 13))
  | 96 => some (styFg (c16 0 255 255 14))
  | 97 => some (styFg (c16 255 255 255 15))
  | 100 => some (styBg (c16 128 128 128 8))
  | 101 => some (styBg (c16 255 0 0 9))
  | 102 => some (styBg (c16 0 255 0 10))
  | 103 => some (styBg (c16 255 255 0 11))
  | 104 => some (styBg (c16 0 0 255 12))
  | 105 => some (styBg (c16 255 0 255 13))
  | 106 => some (styBg (c16 0 255 255 14))
  | 107 => some (styBg (c16 255 255 255 15))
  | _ => none

/-- One cube level of the 256-color table: `0, 95, 135, 175, 215, 255`. -/
def cubeLevel (v : Nat) : Int :=
  if v = 0 then 0 else 55 + 40 * (v : Int)

/-- Entry `n` (0-255) of the `ANSI_COLORS` table after `Color.parse`.
Entries 16-231 are the 6x6x6 color cube and 232-255 the gray ramp,
exactly the `rgb(...)` strings of the source table.  Entries 0-15 are the
named `ansi_*` colors, whose rgb resolution lives in the external
`textual` library; they are modelled as the ansi index with a zero rgb
placeholder (no property proved here inspects these values). -/
def ansiColorEntry (n : Nat) : Color :=
  if n < 16 then ⟨0, 0, 0, some (n : Int)⟩
  else if n ≤ 231 then
    let i := n - 16
    ⟨cubeLevel (i / 36), cubeLevel (i % 36 / 6), cubeLevel (i % 6), none⟩
  else
    let g : Int := 8 + 10 * ((n : Int) - 232)
    ⟨g, g, g, none⟩

/-- `ANSI_COLORS[i]` with Python list-index semantics: negative indices
count from the end, out-of-range indices raise `IndexError` (modelled as
`Except.error`). -/
def ansiColorGet (i : Int) : Except Unit Color :=
  if 0 ≤ i ∧ i < 256 then .ok (ansiColorEntry i.toNat)
  else if -256 ≤ i ∧ i < 0 then .ok (ansiColorEntry (i + 256).toNat)
  else .error ()

/-- Python `str.split(sep)` for a one-character separator: splitting the
empty string yields `[""]`. -/
def pySplit (sep : Char) (s : List Char) : List (List Char) :=
  match s with
  | [] => [[]]
  | c :: rest =>
    let tail := pySplit sep rest
    if c = sep then [] :: tail
    else
      match tail with
      | [] => [[c]]
      | t :: ts => (c :: t) :: ts

/-- Python `int(s)`: optional sign followed by one or more digits
(surrounding whitespace stripped); anything else raises `ValueError`,
modelled as `Except.error`. -/
def pyInt (s : List Char) : Except Unit Int :=
  let t := (s.dropWhile (· = ' ')).reverse.dropWhile (· = ' ') |>.reverse
  let core : List Char → Option Nat := fun ds =>
    if ds = [] ∨ ¬ ds.all Char.isDigit then none
    else some (ds.foldl (fun acc c => acc * 10 + (c.toNat - 48)) 0)
  match t with
  | '-' :: ds => match core ds with
    | some n => .ok (-(n : Int))
    | none => .error ()
  | '+' :: ds => match core ds with
    | some n => .ok (n : Int)
    | none => .error ()
  | ds => match core ds with
    | some n => .ok (n : Int)
    | none => .error ()

/-- The parameter-decoding prefix of `ANSIStream._parse_sgr`: split on
`;`, replace empty fields by `"0"`, convert with `int` (which may raise),
and clamp every code at 255. -/
def parseCodes (sgr : List Char) : Except Unit (List Int) := do
  let fields := pySplit ';' sgr
  let nums ← fields.mapM (fun f => pyInt (if f = [] then ['0'] else f))
  return nums.map (fun c => if c < 255 then c else 255)

/-- A foreground or background color style, selected by the flag. -/
def colorSty (isFg : Bool) (c : Color) : StyleM :=
  if isFg then styFg c else styBg c

/-- One step of the plain-code branch of the SGR loop:
`SGR_STYLE_MAP.get(code)` applied if present. -/
def styleStep (style : StyleM) (code : Int) : StyleM :=
  match sgrStyleMap code with
  | some s => style.add s
  | none => style

/-- The `while codes:` match loop of `ANSIStream._parse_sgr`.  `none`
models the `return None` reset on code 0.  The source orders the
`38/48`-prefixed color arms before the `0` arm; as the heads 38, 48 and 0
are mutually exclusive the dispatch below is the same function. -/
def sgrLoop (style : StyleM) : List Int → Except Unit (Option StyleM)
  | [] => .ok (some style)
  | 0 :: _ => .ok none
  | 38 :: 2 :: r :: g :: b :: rest2 =>
    sgrLoop (style.add (colorSty true ⟨r, g, b, none⟩)) rest2
  | 48 :: 2 :: r :: g :: b :: rest2 =>
    sgrLoop (style.add (colorSty false ⟨r, g, b, none⟩)) rest2
  | 38 :: 5 :: n :: rest2 => do
    let c ← ansiColorGet n
    sgrLoop (style.add (colorSty true c)) rest2
  | 48 :: 5 :: n :: rest2 => do
    let c ← ansiColorGet n
    sgrLoop (style.add (colorSty false c)) rest2
  | code :: rest => sgrLoop (styleStep style code) rest

/-- `ANSIStream._parse_sgr`: `Except.error` models an uncaught
`ValueError`/`IndexError`; `.ok none` models the `None` reset return. -/
def parseSgr (sgr : List Char) : Except Unit (Option StyleM) := do
  let codes ← parseCodes sgr
  sgrLoop NULL_STYLE codes

/-- `ClearType`: the four clear kinds. -/
inductive Clr
  | cursorToEnd
  | cursorToBeginning
  | screen
  | scrollback
deriving DecidableEq, Repr

/-- `DEC(slot, character_set)`: a charset designation. -/
structure DECPair where
  slot : Nat
  character_set : Char
deriving DecidableEq, Repr

/-- `DECInvoke(gl, gr, shift)`. -/
structure DECInvokeM where
  gl : Option Nat
  gr : Option Nat
  shift : Option Nat
deriving DecidableEq, Repr

def mkInvoke : DECInvokeM := ⟨none, none, none⟩

/-- `ANSICursor`: a single cursor/content operation, all fields optional. -/
structure CursorCmd where
  delta_x : Option Int
  delta_y : Option Int
  absolute_x : Option Int
  absolute_y : Option Int
  text : Option (List Char)
  replace : Option (Option Int × Option Int)
  relative : Bool
  update_background : Bool
  auto_scroll : Bool
deriving DecidableEq, Repr

/-- `ANSICursor()` with every field defaulted. -/
def mkCursor : CursorCmd :=
  ⟨none, none, none, none, none, none, false, false, false⟩

/-- `ANSIFeatures`: tri-state terminal feature flags. -/
structure FeaturesCmd where
  show_cursor : Option Bool
  alternate_screen : Option Bool
  bracketed_paste : Option Bool
  cursor_blink : Option Bool
  cursor_keys : Option Bool
  replace_mode : Option Bool
  auto_wrap : Option Bool
deriving DecidableEq, Repr

def mkFeatures : FeaturesCmd := ⟨none, none, none, none, none, none, none⟩

/-- `ANSIMouseTracking`; the tracking mode and report format are kept as
the literal strings of the source. -/
structure MouseCmd where
  tracking : Option (List Char)
  format : Option (List Char)
  focus_events : Option Bool
  alternate_scroll : Option Bool
deriving DecidableEq, Repr

def mkMouse : MouseCmd := ⟨none, none, none, none⟩

/-- `ANSICommand`: the closed set of decoder outputs.  The extra `err`
variant marks a Python exception escaping the decode path (there is no
such command in the source precisely because such an exception is
uncaught there). -/
inductive Cmd
  | newline
  | cursor (c : CursorCmd)
  | style (s : StyleM)
  | clear (k : Clr)
  | scrollMargin (top bottom : Option Int)
  | scroll (direction : Int) (lines : Int)
  | features (f : FeaturesCmd)
  | mouse (m : MouseCmd)
  | workingDir (path : List Char)
  | charset (dec : Option DECPair) (invoke : Option DECInvokeM)
  | err
deriving DecidableEq, Repr

/-- `CLEAR_LINE_CURSOR_TO_END` -/
def CLEAR_LINE_CURSOR_TO_END : Cmd :=
  .cursor { mkCursor with
    replace := some (none, some (-1))
    text := some []
    update_background := true }

/-- `CLEAR_LINE_CURSOR_TO_BEGINNING` -/
def CLEAR_LINE_CURSOR_TO_BEGINNING : Cmd :=
  .cursor { mkCursor with
    replace := some (some 0, none)
    text := some []
    update_background := true }

/-- `CLEAR_LINE` -/
def CLEAR_LINE : Cmd :=
  .cursor { mkCursor with
    replace := some (some 0, some (-1))
    text := some []
    absolute_x := some 0
    update_background := true }

/-- `\w` of the first CSI regex (`re.fullmatch` with `str` patterns is
unicode-aware; every character the tokenizer can put before a CSI final
is ASCII, where `\w` is alphanumerics plus underscore). -/
def isWordChar (c : Char) : Bool := c.isAlphanum || c = '_'

/-- Matcher for `re.fullmatch(r"\x1b\[(\d+)?(?:;)?(\d*)?(\w)", csi)`.
Because group 3 is a single character and the match must cover the whole
string, the final is necessarily the last character; the two digit groups
with the optional `;` must exactly cover the rest, greedily:
either all digits (group 1 takes everything, group 2 empty), or a digit
prefix, one `;`, and a digit suffix. -/
def matchCsiSimple (csi : List Char) : Option (List Char × List Char × Char) :=
  match csi with
  | '\x1b' :: '[' :: body =>
    match body.getLast? with
    | none => none
    | some fin =>
      if isWordChar fin then
        let p := body.dropLast
        if p.all Char.isDigit then some (p, [], fin)
        else
          let d1 := p.takeWhile Char.isDigit
          match p.dropWhile Char.isDigit with
          | ';' :: d2 => if d2.all Char.isDigit then some (d1, d2, fin) else none
          | _ => none
      else none
  | _ => none

/-- Parameter byte of the second CSI regex: `[0-9:;<=>?]` = 0x30-0x3F. -/
def isParamChar (c : Char) : Bool := decide (0x30 ≤ c.toNat ∧ c.toNat ≤ 0x3F)

/-- Intermediate byte, `!` through `/` (0x21-0x2F). -/
def isInterChar (c : Char) : Bool := decide (0x21 ≤ c.toNat ∧ c.toNat ≤ 0x2F)

/-- Matcher for the second CSI regex of the source (parameter bytes, then intermediate bytes 0x21-0x2F, then a final byte in 0x40-0x7E).
The three character classes are disjoint, so the greedy runs are the
maximal runs and no backtracking arises. -/
def matchCsiFull (csi : List Char) : Option (List Char × List Char × Char) :=
  match csi with
  | '\x1b' :: '[' :: body =>
    let params := body.takeWhile isParamChar
    let rest1 := body.dropWhile isParamChar
    let inter := rest1.takeWhile isInterChar
    match rest1.dropWhile isInterChar with
    | [fin] =>
      if 0x40 ≤ fin.toNat ∧ fin.toNat ≤ 0x7E then some (params, inter, fin)
      else none
    | _ => none
  | _ => none

/-- Matcher for `re.fullmatch(r"\x1b\[\?([0-9;]+)([hl])", csi)`. -/
def matchCsiMouse (csi : List Char) : Option (List Char × Char) :=
  match csi with
  | '\x1b' :: '[' :: '?' :: body =>
    match body.getLast? with
    | some hl =>
      if hl = 'h' ∨ hl = 'l' then
        let mid := body.dropLast
        if mid ≠ [] ∧ mid.all (fun c => c.isDigit || c = ';') then
          some (mid, hl)
        else none
      else none
    | none => none
  | _ => none

/-- `int(s or 1)` on a regex-1 digit group. -/
def pyIntOr1 (s : List Char) : Except Unit Int :=
  if s = [] then .ok 1 else pyInt s

/-- The first-regex `match ... case` dispatch of `ANSIStream._parse_csi`,
given the three groups (`groups(default="")`).  The source's arms are
discriminated by distinct final characters, so dispatching on the final
first is the same function.  Note that the `S`/`T` scroll arms call
`int(lines)` with no `or 1` fallback: an absent parameter raises
`ValueError`. -/
def parseCsiSimple (g1 g2 : List Char) (fin : Char) : Except Unit (Option Cmd) := do
  match fin with
  | 'A' => return some (.cursor { mkCursor with delta_y := some (-(← pyIntOr1 g1)) })
  | 'B' => return some (.cursor { mkCursor with delta_y := some (← pyIntOr1 g1) })
  | 'C' => return some (.cursor { mkCursor with delta_x := some (← pyIntOr1 g1) })
  | 'D' => return some (.cursor { mkCursor with delta_x := some (-(← pyIntOr1 g1)) })
  | 'E' => return some (.cursor { mkCursor with
      absolute_x := some 0
      delta_y := some (← pyIntOr1 g1) })
  | 'F' => return some (.cursor { mkCursor with
      absolute_x := some 0
      delta_y := some (-(← pyIntOr1 g1)) })
  | 'G' => return some (.cursor { mkCursor with absolute_x := some ((← pyIntOr1 g1) - 1) })
  | 'H' => return some (.cursor { mkCursor with
      absolute_x := some ((← pyIntOr1 g2) - 1)
      absolute_y := some ((← pyIntOr1 g1) - 1) })
  | 'P' => return some (.cursor { mkCursor with
      replace := some (none, some (← pyIntOr1 g1))
      relative := true
      text := some [] })
  | 'S' => return some (.scroll (-1) (← pyInt g1))
  | 'T' => return some (.scroll 1 (← pyInt g1))
  | 'd' => return some (.cursor { mkCursor with absolute_y := some ((← pyIntOr1 g1) - 1) })
  | 'X' =>
    let characterCount ← pyIntOr1 g1
    return some (.cursor { mkCursor with
      replace := some (none, some characterCount)
      relative := true
      text := some (List.replicate characterCount.toNat ' ') })
  | 'J' =>
    if g1 = ['0'] ∨ g1 = [] then return some (.clear .cursorToEnd)
    else if g1 = ['1'] then return some (.clear .cursorToBeginning)
    else if g1 = ['2'] then return some (.clear .screen)
    else if g1 = ['3'] then return some (.clear .scrollback)
    else return none
  | 'K' =>
    if g1 = ['0'] ∨ g1 = [] then return some CLEAR_LINE_CURSOR_TO_END
    else if g1 = ['1'] then return some CLEAR_LINE_CURSOR_TO_BEGINNING
    else if g1 = ['2'] then return some CLEAR_LINE
    else return none
  | 'r' =>
    if g1 = [] then return some (.scrollMargin none none)
    else
      let top ← pyInt g1
      let bottom ← pyIntOr1 g2
      return some (.scrollMargin (some (top - 1)) (some (bottom - 1)))
  | 'h' =>
    if g1 = ['4'] then return some (.features { mkFeatures with replace_mode := some true })
    else return none
  | 'l' =>
    if g1 = ['4'] then return some (.features { mkFeatures with replace_mode := some false })
    else return none
  | _ => return none

/-- The mouse-mode fold inside `_parse_csi` (modes `1000/1002/...`). -/
def mouseFold (enable : Bool) (modes : List (List Char)) : MouseCmd :=
  modes.foldl (fun m mode =>
    if mode = ['1','0','0','0'] then
      { m with tracking := some (if enable then "button".toList else "none".toList) }
    else if mode = ['1','0','0','2'] then
      { m with tracking := some (if enable then "drag".toList else "none".toList) }
    else if mode = ['1','0','0','3'] then
      { m with tracking := some (if enable then "all".toList else "none".toList) }
    else if mode = ['1','0','0','6'] then { m with format := some "sgr".toList }
    else if mode = ['1','0','1','5'] then { m with format := some "urxvt".toList }
    else if mode = ['1','0','0','4'] then { m with focus_events := some enable }
    else if mode = ['1','0','0','7'] then { m with alternate_scroll := some enable }
    else m) mkMouse

/-- The second-regex dispatch of `_parse_csi`: the named private modes,
the `t` (XTWINOPS) arm, and on fallthrough the third (mouse) regex. -/
def parseCsiFull (params inter : List Char) (fin : Char) (csi : List Char) :
    Except Unit (Option Cmd) :=
  let p := String.mk params
  if p = "?25" ∧ inter = [] ∧ fin = 'h' then
    .ok (some (.features { mkFeatures with show_cursor := some true }))
  else if p = "?25" ∧ inter = [] ∧ fin = 'l' then
    .ok (some (.features { mkFeatures with show_cursor := some false }))
  else if p = "?1049" ∧ inter = [] ∧ fin = 'h' then
    .ok (some (.features { mkFeatures with alternate_screen := some true }))
  else if p = "?1049" ∧ inter = [] ∧ fin = 'l' then
    .ok (some (.features { mkFeatures with alternate_screen := some false }))
  else if p = "?2004" ∧ inter = [] ∧ fin = 'h' then
    .ok (some (.features { mkFeatures with bracketed_paste := some true }))
  else if p = "?2004" ∧ inter = [] ∧ fin = 'l' then
    .ok (some (.features { mkFeatures with bracketed_paste := some false }))
  else if p = "?12" ∧ inter = [] ∧ fin = 'h' then
    .ok (some (.features { mkFeatures with cursor_blink := some true }))
  else if p = "?12" ∧ inter = [] ∧ fin = 'l' then
    .ok (some (.features { mkFeatures with cursor_blink := some false }))
  else if p = "?1" ∧ inter = [] ∧ fin = 'h' then
    .ok (some (.features { mkFeatures with cursor_keys := some true }))
  else if p = "?1" ∧ inter = [] ∧ fin = 'l' then
    .ok (some (.features { mkFeatures with cursor_keys := some false }))
  else if p = "?7" ∧ inter = [] ∧ fin = 'h' then
    .ok (some (.features { mkFeatures with auto_wrap := some true }))
  else if p = "?7" ∧ inter = [] ∧ fin = 'l' then
    .ok (some (.features { mkFeatures with auto_wrap := some false }))
  else if fin = 't' then .ok none
  else
    match matchCsiMouse csi with
    | some (mid, hl) =>
      .ok (some (.mouse (mouseFold (hl = 'h') (pySplit ';' mid))))
    | none => .ok none

/-- `ANSIStream._parse_csi`: try the simple numeric regex, then the
generic CSI regex (with the mouse regex inside its fallthrough); an
unmatched sequence decodes to `None`.  `Except.error` models an uncaught
`ValueError`. -/
def parseCsi (csi : List Char) : Except Unit (Option Cmd) :=
  match matchCsiSimple csi with
  | some (g1, g2, fin) => parseCsiSimple g1 g2 fin
  | none =>
    match matchCsiFull csi with
    | some (params, inter, fin) => parseCsiFull params inter fin csi
    | none => .ok none

/-- A tokenizer output: a `(tag, payload)` pair exactly like the
`tuple[str, str]` tokens of `ANSIParser`. -/
abbrev Token := String × List Char

/-- The resumable tokenizer state. -/
inductive TokState
  | content (buf : List Char)
  | esc
  | csi (buf : List Char)
  | osc (buf : List Char) (sawEsc : Bool)
  | dcs (buf : List Char) (last : Option Char)
  | csd (intro : Char)
  | la
  | sp
deriving DecidableEq, Repr

/-- The pending content run, emitted when a separator or escape arrives. -/
def flushContent (buf : List Char) : List Token :=
  if buf = [] then [] else [("content", buf)]

/-- Modelled from the spec: the resumable `StreamParser`
(`toad/_stream_parser.py`) is not among the sources, so the
suspend-mid-sequence behaviour is modelled per spec section 4.1 and the
design note of section 9 as an explicit state machine advanced one input
character at a time, with a content run buffered until one of
`\n \r ESC BACKSPACE` arrives.  The per-family dispatch after `ESC`
follows `FEPattern.check` and `ANSIParser.parse` from `ansi.py`: CSI
accumulates until a byte in 0x40-0x7E, charset designation takes one
final byte in 0x30-0x7E (a byte outside the range discards the
sequence), `#` and space take one extra byte, any other byte is a
`control` token.  OSC accumulates the text after `ESC` until `BEL` or
`ESC \`, excluded, so the payload handed to `on_token` starts with `]`
(matching the `osc[1:]` slicing there); DCS follows `FEPattern`
(terminator 0x9c, with the `ESC \` break storing the backslash twice). -/
def tokStep (st : TokState) (c : Char) : TokState × List Token :=
  match st with
  | .content buf =>
    if c = '\n' ∨ c = '\r' ∨ c = '\x08' then
      (.content [], flushContent buf ++ [("separator", [c])])
    else if c = '\x1b' then (.esc, flushContent buf)
    else (.content (buf ++ [c]), [])
  | .esc =>
    if c = '[' then (.csi [], [])
    else if c = ']' then (.osc [']'] false, [])
    else if c = 'P' then (.dcs [] none, [])
    else if c = '(' ∨ c = ')' ∨ c = '*' ∨ c = '+' ∨ c = '-' ∨ c = '.' then
      (.csd c, [])
    else if c = '#' then (.la, [])
    else if c = ' ' then (.sp, [])
    else (.content [], [("control", [c])])
  | .csi buf =>
    if 0x40 ≤ c.toNat ∧ c.toNat ≤ 0x7E then
      (.content [], [("csi", '\x1b' :: '[' :: (buf ++ [c]))])
    else (.csi (buf ++ [c]), [])
  | .osc buf sawEsc =>
    if sawEsc then
      if c = '\\' then (.content [], [("osc", buf)])
      else if c = '\x1b' then (.osc (buf ++ ['\x1b']) true, [])
      else if c = '\x07' then (.content [], [("osc", buf ++ ['\x1b'])])
      else (.osc (buf ++ ['\x1b', c]) false, [])
    else
      if c = '\x07' then (.content [], [("osc", buf)])
      else if c = '\x1b' then (.osc buf true, [])
      else (.osc (buf ++ [c]) false, [])
  | .dcs buf last =>
    if c = '\x9c' then
      (.content [], [("dcs", '\x1b' :: 'P' :: (buf ++ [c]))])
    else
      let buf2 := buf ++ [c]
      if last = some '\x1b' ∧ c = '\\' then
        (.content [], [("dcs", '\x1b' :: 'P' :: (buf2 ++ [c]))])
      else (.dcs buf2 (some c), [])
  | .csd intro =>
    if 0x30 ≤ c.toNat ∧ c.toNat ≤ 0x7E then
      (.content [], [("csd", ['\x1b', intro, c])])
    else (.content [], [])
  | .la => (.content [], [("la", ['\x1b', '#', c])])
  | .sp => (.content [], [("sp", ['\x1b', ' ', c])])

/-- `DEC_SLOTS` (the `"//"` key of the source dict is a two-character
string that a one-character introducer can never equal, so it is
unreachable and omitted). -/
def decSlots (c : Char) : Option Nat :=
  match c with
  | '(' => some 0
  | ')' => some 1
  | '*' => some 2
  | '+' => some 3
  | '-' => some 1
  | '.' => some 2
  | _ => none

/-- `ANSIStream.DEC_INVOKE_MAP`. -/
def decInvokeMap (c : Char) : Option DECInvokeM :=
  match c with
  | 'n' => some { mkInvoke with gl := some 2 }
  | 'o' => some { mkInvoke with gl := some 3 }
  | '~' => some { mkInvoke with gr := some 1 }
  | '}' => some { mkInvoke with gr := some 2 }
  | '|' => some { mkInvoke with gr := some 3 }
  | 'N' => some { mkInvoke with shift := some 2 }
  | 'O' => some { mkInvoke with shift := some 3 }
  | _ => none

/-- `CONTROL_CODES`. -/
def controlCodes (c : Char) : Option String :=
  match c with
  | 'D' => some "ind"
  | 'E' => some "nel"
  | 'H' => some "hts"
  | 'I' => some "htj"
  | 'J' => some "vts"
  | 'K' => some "pld"
  | 'L' => some "plu"
  | 'M' => some "ri"
  | 'N' => some "ss2"
  | 'O' => some "ss3"
  | 'P' => some "dcs"
  | 'Q' => some "pu1"
  | 'R' => some "pu2"
  | 'S' => some "sts"
  | 'T' => some "cch"
  | 'U' => some "mw"
  | 'V' => some "spa"
  | 'W' => some "epa"
  | 'X' => some "sos"
  | 'Z' => some "decid"
  | '[' => some "csi"
  | '\\' => some "st"
  | ']' => some "osc"
  | '^' => some "pm"
  | '_' => some "apc"
  | 'c' => some "ris"
  | '7' => some "decsc"
  | '8' => some "decrc"
  | '=' => some "deckpam"
  | '>' => some "deckpnm"
  | '#' => some "decaln"
  | '(' => some "scs_g0"
  | ')' => some "scs_g1"
  | '*' => some "scs_g2"
  | '+' => some "scs_g3"
  | _ => none

/-- `ANSIStream.on_token`, with the mutable `self.style` and
`self.current_directory` passed and returned explicitly.  The `dec` and
`dev_invoke` arms are kept verbatim from the source even though the
tokenizer only ever emits the tag `csd` for charset sequences, so those
arms are unreachable from `feed`. -/
def onToken (style : StyleM) (cwd : List Char) (t : Token) :
    StyleM × List Char × List Cmd :=
  let (tag, payload) := t
  if tag = "separator" then
    if payload = ['\n'] then (style, cwd, [.newline])
    else if payload = ['\r'] then
      (style, cwd, [.cursor { mkCursor with absolute_x := some 0 }])
    else if payload = ['\x08'] then
      (style, cwd, [.cursor { mkCursor with delta_x := some (-1) }])
    else (style, cwd, [.err])
  else if tag = "osc" then
    let fields := pySplit ';' (payload.drop 1)
    if fields.head? = some ['8'] ∧ 2 ≤ fields.length then
      let link := fields.getLast!
      (style.add { NULL_STYLE with
        link := if link = [] then none else some link }, cwd, [])
    else if fields.head? = some ['2','0','2','5'] ∧ 2 ≤ fields.length then
      let cd := (fields.get? 1).getD []
      (style, cd, [.workingDir cd])
    else (style, cwd, [])
  else if tag = "csi" then
    if payload.getLast? = some 'm' then
      match parseSgr ((payload.drop 2).dropLast) with
      | .error _ => (style, cwd, [.err])
      | .ok none => (NULL_STYLE, cwd, [.style NULL_STYLE])
      | .ok (some s) =>
        let style2 := style.add s
        (style2, cwd, [.style style2])
    else
      match parseCsi payload with
      | .error _ => (style, cwd, [.err])
      | .ok none => (style, cwd, [])
      | .ok (some cmd) => (style, cwd, [cmd])
  else if tag = "dec" then
    match payload with
    | [slot, characterSet] =>
      match decSlots slot with
      | some n => (style, cwd, [.charset (some ⟨n, characterSet⟩) none])
      | none => (style, cwd, [.err])
    | _ => (style, cwd, [.err])
  else if tag = "dev_invoke" then
    match payload.head? with
    | some c =>
      match decInvokeMap c with
      | some inv => (style, cwd, [.charset none (some inv)])
      | none => (style, cwd, [.err])
    | none => (style, cwd, [.err])
  else if tag = "control" then
    match payload.head? with
    | some code =>
      match controlCodes code with
      | some name =>
        if name = "ri" then
          (style, cwd, [.cursor { mkCursor with
            delta_y := some (-1)
            auto_scroll := true }])
        else if name = "ind" then
          (style, cwd, [.cursor { mkCursor with
            delta_y := some 1
            auto_scroll := true }])
        else (style, cwd, [])
      | none => (style, cwd, [])
    | none => (style, cwd, [])
  else if tag = "content" then
    (style, cwd, [.cursor { mkCursor with
      delta_x := some (payload.length : Int)
      text := some payload }])
  else (style, cwd, [])

/-- The persistent state of one `ANSIStream` (tokenizer state, pen style,
reported working directory). -/
structure StreamSt where
  tok : TokState
  style : StyleM
  current_directory : List Char
deriving DecidableEq, Repr

/-- A fresh `ANSIStream()`. -/
def initStream : StreamSt := ⟨.content [], NULL_STYLE, []⟩

/-- Process one input character: advance the tokenizer and run
`on_token` on each completed token. -/
def streamStep (st : StreamSt) (c : Char) : StreamSt × List Cmd :=
  let (tok2, tokens) := tokStep st.tok c
  let folded := tokens.foldl
    (fun (acc : StyleM × List Char × List Cmd) t =>
      let (sty2, cwd2, cs2) := onToken acc.1 acc.2.1 t
      (sty2, cwd2, acc.2.2 ++ cs2))
    (st.style, st.current_directory, [])
  (⟨tok2, folded.1, folded.2.1⟩, folded.2.2)

/-- `ANSIStream.feed`: feed a chunk of text, returning the updated stream
state and the commands produced, in order. -/
def feedStream (st : StreamSt) : List Char → StreamSt × List Cmd
  | [] => (st, [])
  | c :: rest =>
    let p1 := streamStep st c
    let p2 := feedStream p1.1 rest
    (p2.1, p1.2 ++ p2.2)

/-- Feed a sequence of chunks one `feed` call at a time, concatenating
the commands of every call. -/
def feedChunks (st : StreamSt) : List (List Char) → StreamSt × List Cmd
  | [] => (st, [])
  | chunk :: rest =>
    let p1 := feedStream st chunk
    let p2 := feedChunks p1.1 rest
    (p2.1, p1.2 ++ p2.2)

/-- The DEC special-graphics (VT100 line drawing) translation entries. -/
def decSpecialGraphics : List (Char × Char) :=
  [('j', '┘'), ('k', '┐'), ('l', '┌'), ('m', '└'), ('n', '┼'), ('q', '─'),
   ('t', '├'), ('u', '┤'), ('v', '┴'), ('w', '┬'), ('x', '│')]

/-- Modelled from the spec: `CHARSET_MAP` is defined in `toad/dec.py`,
which is not among the sources.  Per spec section 4.3 it maps a
character-set identifier to a byte-to-codepoint translation table ("e.g.
VT100 line-drawing set") and identifiers with no special table (such as
`"B"`, US-ASCII) have no entry, so text passes through unchanged.  The
`"0"` (DEC Special Graphics) set is given its standard line-drawing
entries. -/
def CHARSET_MAP (id : String) : Option (List (Char × Char)) :=
  if id = "0" then some decSpecialGraphics else none

/-- Apply a translation table to one character (`str.translate` on a
single character: mapped if present, unchanged otherwise). -/
def applyTable (table : List (Char × Char)) (c : Char) : Char :=
  match table.find? (fun p => p.1 = c) with
  | some p => p.2
  | none => c

/-- `str.translate` over a whole string. -/
def pyTranslate (table : List (Char × Char)) (s : List Char) : List Char :=
  s.map (applyTable table)

/-- `DECState`. -/
structure DECStateM where
  slots : List String
  gl_slot : Nat
  gr_slot : Nat
  shift : Option Nat
deriving DecidableEq, Repr

/-- `DECState()` defaults. -/
def initDEC : DECStateM := ⟨["B", "B", "<", "0"], 0, 2, none⟩

/-- `DECState.gl`. -/
def DECStateM.gl (d : DECStateM) : String := (d.slots.get? d.gl_slot).getD ""

/-- `DECState.update`.  The source tests `if dec_invoke.shift:` with
Python truthiness, so a shift of `0` (never produced) would be treated as
unset. -/
def DECStateM.update (d : DECStateM) (dec : Option DECPair)
    (invoke : Option DECInvokeM) : DECStateM :=
  match dec with
  | some p => { d with slots := d.slots.set p.slot (String.mk [p.character_set]) }
  | none =>
    match invoke with
    | some inv =>
      if inv.shift.getD 0 ≠ 0 then { d with shift := inv.shift }
      else
        match inv.gl with
        | some g => { d with gl_slot := g }
        | none =>
          match inv.gr with
          | some g => { d with gr_slot := g }
          | none => d
    | none => d

/-- `DECState.translate`.  `none` models the uncaught `IndexError` of
`text[0]` when a single shift is pending (with a non-empty table) and the
text is empty.  Note the source translates the *whole* `text` through the
GL table and prepends the translated first character, so with a pending
shift the result is one character longer than the input. -/
def DECStateM.translate (d : DECStateM) (text : List Char) :
    Option (DECStateM × List Char) :=
  let shiftTab : List (Char × Char) :=
    match d.shift with
    | some s => (CHARSET_MAP ((d.slots.get? s).getD "")).getD []
    | none => []
  if d.shift.isSome ∧ shiftTab ≠ [] then
    match text with
    | [] => none
    | c0 :: _ =>
      let firstCharacter := applyTable shiftTab c0
      let d2 := { d with shift := none }
      let glTab := (CHARSET_MAP d2.gl).getD []
      let text2 := if glTab ≠ [] then pyTranslate glTab text else text
      some (d2, firstCharacter :: text2)
  else
    let glTab := (CHARSET_MAP d.gl).getD []
    let text2 := if glTab ≠ [] then pyTranslate glTab text else text
    some (d, text2)

/-- `MouseTracking` (the state object, not the command). -/
structure MouseSt where
  tracking : List Char
  format : List Char
  focus_events : Bool
  alternate_scroll : Bool
deriving DecidableEq, Repr

/-- `LineFold`.  `line_no` is `Int` because `update_line` passes its
`line_index` argument straight to `_fold_line`, and a scroll inside a
negative margin can make that index negative. -/
structure LineFold where
  line_no : Int
  line_offset : Nat
  offset : Nat
  content : List Char
  updates : Nat
deriving DecidableEq, Repr

def defaultFold : LineFold := ⟨0, 0, 0, [], 0⟩

/-- `LineRecord`. -/
structure LineRecord where
  content : List Char
  style : StyleM
  folds : List LineFold
  updates : Nat
deriving DecidableEq, Repr

def defaultRecord : LineRecord := ⟨[], NULL_STYLE, [], 0⟩

/-- `Buffer`.  `scroll_margin` is the `(top, bottom)` pair; cursor offset
is `Int` (backspace can drive it negative). -/
structure BufferM where
  lines : List LineRecord
  line_to_fold : List Nat
  folded_lines : List LineFold
  scroll_margin : Option Int × Option Int
  cursor_line : Nat
  cursor_offset : Int
  max_line_width : Nat
  updates : Nat
deriving DecidableEq, Repr

/-- `Buffer()` defaults (note the source defaults `scroll_margin` to
`ScrollMargin(0, 0)`, not to unset margins). -/
def emptyBuffer : BufferM := ⟨[], [], [], (some 0, some 0), 0, 0, 0, 0⟩

/-- Python list read `l[i]`: negative indices count from the end;
`none` is `IndexError`. -/
def pyIdxNorm (len : Nat) (i : Int) : Option Nat :=
  if 0 ≤ i then (if i < (len : Int) then some i.toNat else none)
  else (if 0 ≤ (len : Int) + i then some ((len : Int) + i).toNat else none)

def pyIdx {α : Type} (l : List α) (i : Int) : Option α :=
  (pyIdxNorm l.length i).bind (fun n => l.get? n)

/-- Python `del l[i:]` (list truncation; negative start counts from the
end and clamps at 0). -/
def pyDelFrom {α : Type} (l : List α) (i : Int) : List α :=
  if 0 ≤ i then l.take i.toNat else l.take ((l.length : Int) + i).toNat

/-- Python slice `l[:i]` with an `Int` bound. -/
def pySliceTo {α : Type} (l : List α) (i : Int) : List α :=
  if 0 ≤ i then l.take i.toNat else l.take ((l.length : Int) + i).toNat

/-- Python slice `l[i:]` with an `Int` bound. -/
def pySliceFrom {α : Type} (l : List α) (i : Int) : List α :=
  if 0 ≤ i then l.drop i.toNat else l.drop ((l.length : Int) + i).toNat

/-- Python `range(a, b)` over `Int`. -/
def intRangeGo (a : Int) : Nat → List Int
  | 0 => []
  | k + 1 => a :: intRangeGo (a + 1) k

def intRange (a b : Int) : List Int := intRangeGo a (b - a).toNat

/-- `Content.expand_tabs(8)`: a tab advances to the next multiple of 8
display cells. -/
def expandTabsGo : List Char → Nat → List Char
  | [], _ => []
  | c :: rest, col =>
    if c = '\t' then
      let pad := 8 - col % 8
      List.replicate pad ' ' ++ expandTabsGo rest (col + pad)
    else c :: expandTabsGo rest (col + 1)

def expandTabs (cells : List Char) : List Char := expandTabsGo cells 0

/-- `Content.divide`: split at the given ascending absolute offsets,
producing `offsets.length + 1` pieces. -/
def divideGo {α : Type} (l : List α) (prev : Nat) : List Nat → List (List α)
  | [] => [l.drop prev]
  | o :: rest => ((l.drop prev).take (o - prev)) :: divideGo l o rest

def divideAbs {α : Type} (l : List α) (offs : List Nat) : List (List α) :=
  match offs with
  | [] => [l]
  | o :: rest => l.take o :: divideGo l o rest

/-- `TerminalState._fold_line`, with the fields of `self` it reads
(`auto_wrap`, `_updates`) passed explicitly.  Mirrors the source exactly,
including the `width == 0` branch storing line number 0 instead of
`line_no`. -/
def foldLineP (autoWrap : Bool) (updates : Nat) (line_no : Int)
    (line : List Char) (width : Nat) : List LineFold :=
  if autoWrap = false then [⟨line_no, 0, 0, line, updates⟩]
  else if width = 0 then [⟨0, 0, 0, line, updates⟩]
  else
    let lineLength := line.length
    if lineLength ≤ width then [⟨line_no, 0, 0, line, updates⟩]
    else
      let divideOffsets := (List.range' 1 ((lineLength - 1) / width)).map (· * width)
      let foldedLines := divideAbs line divideOffsets
      let offsets := 0 :: divideOffsets
      ((offsets.zip foldedLines).enum).map
        (fun p => ⟨line_no, p.1, p.2.1, p.2.2, updates⟩)

/-- `TerminalState` together with its owned `ANSIStream`. -/
structure TState where
  width : Nat
  height : Nat
  style : StyleM
  show_cursor : Bool
  alternate_screen : Bool
  bracketed_paste : Bool
  cursor_blink : Bool
  cursor_keys : Bool
  replace_mode : Bool
  auto_wrap : Bool
  current_directory : List Char
  scrollback_buffer : BufferM
  alternate_buffer : BufferM
  dec_state : DECStateM
  mouse_tracking : MouseSt
  updates : Nat
  stream : StreamSt
deriving DecidableEq, Repr

/-- `TerminalState(width, height)` defaults. -/
def initT (w h : Nat) : TState :=
  ⟨w, h, NULL_STYLE, true, false, false, false, false, true, true, [],
    emptyBuffer, emptyBuffer, initDEC,
    ⟨"none".toList, "normal".toList, false, false⟩, 0, initStream⟩

/-- `TerminalState.buffer`: the active buffer. -/
def TState.buffer (st : TState) : BufferM :=
  if st.alternate_screen then st.alternate_buffer else st.scrollback_buffer

/-- Write back the active buffer. -/
def TState.setBuffer (st : TState) (b : BufferM) : TState :=
  if st.alternate_screen then { st with alternate_buffer := b }
  else { st with scrollback_buffer := b }

/-- Replace the global updates counter. -/
def TState.setUpdates (st : TState) (u : Nat) : TState := { st with updates := u }

/-- `TerminalState.advance_updates`. -/
def TState.advanceUpdates (st : TState) : TState × Nat :=
  (st.setUpdates (st.updates + 1), st.updates + 1)

/-- `TerminalState._fold_line` reading `auto_wrap` and `_updates` from
the state. -/
def TState.foldLine (st : TState) (line_no : Int) (line : List Char)
    (width : Nat) : List LineFold :=
  foldLineP st.auto_wrap st.updates line_no line width

/-- `TerminalState.add_line` (always called on the active buffer). -/
def addLine (st : TState) (content : List Char) (style : StyleM) : TState :=
  let st1 := st.advanceUpdates.1
  let updates := st.advanceUpdates.2
  let b := st1.buffer
  let line_no := b.lines.length
  let folds := st1.foldLine (line_no : Int) content st1.width
  let lr : LineRecord := ⟨content, style, folds, updates⟩
  st1.setBuffer { b with
    lines := b.lines ++ [lr]
    line_to_fold := b.line_to_fold ++ [b.folded_lines.length]
    folded_lines := b.folded_lines ++ folds
    updates := updates }

/-- Append `n` empty lines (`add_line(buffer, EMPTY_LINE)`). -/
def addEmptyN (st : TState) : Nat → TState
  | 0 => st
  | n + 1 => addEmptyN (addLine st [] NULL_STYLE) n

/-- The `while line_index >= len(buffer.lines)` padding loop of
`update_line`: each `add_line` appends exactly one line, so the loop runs
`line_index + 1 - len` times. -/
def padLines (st : TState) (idx : Int) : TState :=
  addEmptyN st (idx + 1 - (st.buffer.lines.length : Int)).toNat

/-- The rebuild loop at the end of `update_line`: re-append
`line_to_fold` entries and folds for every line from `line_index` to the
end (Python `range` semantics, so a negative start revisits trailing
lines through negative indexing). -/
def rebuildRange (lines : List LineRecord) : List Int → List Nat →
    List LineFold → List Nat × List LineFold
  | [], ltf, folded => (ltf, folded)
  | i :: rest, ltf, folded =>
    let lr := (pyIdx lines i).getD defaultRecord
    rebuildRange lines rest (ltf ++ [folded.length]) (folded ++ lr.folds)

/-- The body of `update_line` after the padding loop.  The two `none`
branches of the Python index reads model an `IndexError` escaping after
the mutations already performed (only reachable with indices below
`-len`, or a `line_to_fold` shorter than `lines`). -/
def updateLineCore (st : TState) (idx : Int) (line : List Char) : TState :=
  let b := st.buffer
  let expanded := expandTabs line
  let st1 := st.setBuffer { b with
    max_line_width := max expanded.length b.max_line_width }
  let b1 := st1.buffer
  match pyIdxNorm b1.lines.length idx with
  | none => st1
  | some eff =>
    let folds := st1.foldLine idx expanded st1.width
    let st2 := st1.advanceUpdates.1
    let upd := st1.advanceUpdates.2
    let b2 := st2.buffer
    let lr0 := (b2.lines.get? eff).getD defaultRecord
    let lr := { lr0 with content := line, folds := folds, updates := upd }
    let lines2 := b2.lines.set eff lr
    match pyIdx b2.line_to_fold idx with
    | none => st2.setBuffer { b2 with lines := lines2 }
    | some fl =>
      let ltf0 := pyDelFrom b2.line_to_fold idx
      let folded0 := b2.folded_lines.take fl
      let r := rebuildRange lines2 (intRange idx (lines2.length : Int)) ltf0 folded0
      st2.setBuffer { b2 with
        lines := lines2
        line_to_fold := r.1
        folded_lines := r.2 }

/-- `TerminalState.update_line`. -/
def updateLine (st : TState) (idx : Int) (line : List Char) : TState :=
  updateLineCore (padLines st idx) idx line

/-- `Buffer.clear`. -/
def clearBuf (b : BufferM) (updates : Nat) : BufferM :=
  { b with
    lines := []
    line_to_fold := []
    folded_lines := []
    cursor_line := 0
    cursor_offset := 0
    max_line_width := 0
    updates := updates }

/-- Repeat `add_line(buffer, EMPTY_LINE, style)`. -/
def addStyledN (st : TState) (style : StyleM) : Nat → TState
  | 0 => st
  | n + 1 => addStyledN (addLine st [] style) style n

/-- `TerminalState.clear_buffer`: only the `screen` kind mutates. -/
def clearBuffer (st : TState) (k : Clr) : TState :=
  match k with
  | .screen =>
    let st1 := st.advanceUpdates.1
    let upd := st.advanceUpdates.2
    let st2 := st1.setBuffer (clearBuf st1.buffer upd)
    addStyledN st2 st2.style st2.height
  | _ => st

/-- `ScrollMargin.get_line_range(height)`: `(top or 0, height - 1 if
bottom is None else bottom)`.  `top or 0` maps both `None` and `0` to 0,
which is `getD 0`. -/
def getLineRange (margin : Option Int × Option Int) (height : Nat) : Int × Int :=
  (margin.1.getD 0, match margin.2 with
    | none => (height : Int) - 1
    | some v => v)

/-- One iteration of the upward (`direction == -1`) scroll loop. -/
def scrollUpStep (marginBottom : Int) (lines : Int) (acc : TState)
    (line_no : Int) : TState :=
  let copyNo := line_no + lines
  let copyLine :=
    if copyNo > marginBottom then ([] : List Char)
    else ((pyIdx acc.buffer.lines copyNo).map (·.content)).getD []
  updateLine acc line_no copyLine

/-- One iteration of the downward scroll loop. -/
def scrollDownStep (marginTop : Int) (lines : Int) (acc : TState)
    (line_no : Int) : TState :=
  let copyNo := line_no - lines
  let copyLine :=
    if copyNo < marginTop then ([] : List Char)
    else ((pyIdx acc.buffer.lines copyNo).map (·.content)).getD []
  updateLine acc line_no copyLine

/-- `TerminalState.scroll_buffer`.  The `try/except IndexError` around
the copy-source read becomes the `Option` fallback to the empty line. -/
def scrollBuffer (st : TState) (direction : Int) (lines : Int) : TState :=
  let b := st.buffer
  let marginTop := (getLineRange b.scroll_margin st.height).1
  let marginBottom := (getLineRange b.scroll_margin st.height).2
  let lineStart := marginTop
  let lineEnd := marginBottom + 1
  if direction = -1 then
    (intRange lineStart lineEnd).foldl (scrollUpStep marginBottom lines) st
  else
    ((intRange lineStart lineEnd).reverse).foldl
      (scrollDownStep marginTop lines) st

/-- The position loop shared by `Buffer.cursor` and
`TerminalState.get_cursor_line_offset`: walk the folds of the cursor's
line, summing fold lengths until the cursor's fold, then add the cursor
offset (if the loop runs out without hitting the fold, no offset is
added, as with Python `for`/`break`). -/
def cursorWalk (clo : Nat) (coff : Int) : List LineFold → Nat → Int → Int
  | [], _, pos => pos
  | f :: rest, i, pos =>
    if i = clo then pos + coff
    else cursorWalk clo coff rest (i + 1) (pos + (f.content.length : Int))

/-- `Buffer.cursor`: the cursor position in unfolded coordinates. -/
def BufferM.cursorPos (b : BufferM) : Int × Int :=
  if b.cursor_line ≥ b.folded_lines.length then
    ((b.folded_lines.length : Int), 0)
  else
    let cfl := (b.folded_lines.get? b.cursor_line).getD defaultFold
    let line := (pyIdx b.lines cfl.line_no).getD defaultRecord
    (cfl.line_no, cursorWalk cfl.line_offset b.cursor_offset line.folds 0 0)

/-- `TerminalState.get_cursor_line_offset`. -/
def getCursorLineOffset (b : BufferM) : Int :=
  let cfl := (b.folded_lines.get? b.cursor_line).getD defaultFold
  let line := (pyIdx b.lines cfl.line_no).getD defaultRecord
  cursorWalk cfl.line_offset b.cursor_offset line.folds 0 0

/-- The per-line loop of `_reflow`: re-fold every line in order,
threading the global updates counter (the folds of line `i` snapshot the
counter value after `i` earlier `advance_updates` calls). -/
def reflowGo (autoWrap : Bool) (width : Nat) : List LineRecord → Nat → Nat →
    List Nat → List LineFold → List LineRecord × List Nat × List LineFold × Nat
  | [], _, upd, ltf, folded => ([], ltf, folded, upd)
  | lr :: rest, line_no, upd, ltf, folded =>
    let expanded := expandTabs lr.content
    let folds := foldLineP autoWrap upd (line_no : Int) expanded width
    let upd2 := upd + 1
    let lr2 := { lr with folds := folds, updates := upd2 }
    let r := reflowGo autoWrap width rest (line_no + 1) upd2
      (ltf ++ [folded.length]) (folded ++ folds)
    (lr2 :: r.1, r.2.1, r.2.2.1, r.2.2.2)

/-- The cursor-remap loop of `_reflow` over the reversed folds. -/
def remapLoop (cursorOffset : Int) (base : Nat) : List LineFold → Nat × Int
  | [] => (base, 0)
  | f :: rest =>
    if cursorOffset ≥ (f.offset : Int) then
      (base + f.line_offset, cursorOffset - (f.offset : Int))
    else remapLoop cursorOffset base rest

/-- The non-trivial branch of `TerminalState._reflow`. -/
def reflowCore (st : TState) : TState :=
  let b := st.buffer
  let cursorLine := b.cursorPos.1
  let cursorOffset := b.cursorPos.2
  let r := reflowGo st.auto_wrap st.width b.lines 0 st.updates [] []
  let lines2 := r.1
  let st2 := (st.setBuffer { b with
    lines := lines2
    line_to_fold := r.2.1
    folded_lines := r.2.2.1 }).setUpdates r.2.2.2
  let b2 := st2.buffer
  if cursorLine ≥ (lines2.length : Int) then
    st2.setBuffer { b2 with cursor_line := lines2.length, cursor_offset := 0 }
  else
    let line := (pyIdx lines2 cursorLine).getD defaultRecord
    let foldCursorLine := (pyIdx r.2.1 cursorLine).getD 0
    let rm := remapLoop cursorOffset foldCursorLine line.folds.reverse
    st2.setBuffer { b2 with cursor_line := rm.1, cursor_offset := rm.2 }

/-- `TerminalState._reflow`: early return when the buffer has no lines. -/
def reflow (st : TState) : TState :=
  if st.buffer.lines = [] then st else reflowCore st

/-- `TerminalState.update_size`. -/
def updateSize (st : TState) (w h : Option Nat) : TState :=
  reflow { st with width := w.getD st.width, height := h.getD st.height }

/-- `TerminalState._line_updated`: bump one line's updates counter,
swallowing `IndexError` (the counter itself is advanced first, matching
Python's right-hand-side-first evaluation of the assignment). -/
def lineUpdated (st : TState) (line_no : Int) : TState :=
  let st1 := st.advanceUpdates.1
  let upd := st.advanceUpdates.2
  match pyIdxNorm st1.buffer.lines.length line_no with
  | none => st1
  | some eff =>
    let b := st1.buffer
    let lr := (b.lines.get? eff).getD defaultRecord
    st1.setBuffer { b with lines := b.lines.set eff { lr with updates := upd } }

/-- `ANSICursor.get_replace_offsets`. -/
def getReplaceOffsets (cc : CursorCmd) (cursorOffset : Int) (lineLength : Nat) :
    Int × Int :=
  match cc.replace with
  | none => (0, 0)
  | some (rs0, re0) =>
    let rs1 := rs0.getD cursorOffset
    let re1 := re0.getD cursorOffset
    let rs2 := if rs1 < 0 then (lineLength : Int) + rs1 else rs1
    let re2 := if re1 < 0 then (lineLength : Int) + re1 else re1
    if cc.relative then (cursorOffset + rs2, cursorOffset + re2)
    else (rs2, re2)

/-- The `while cursor_offset > width` wrap loop of the cursor `delta_x`
application.  With `width ≥ 1` the fuel `offset.toNat` always suffices;
the Python loop does not terminate at all when `width = 0` and the offset
is positive, and the fuel cuts that divergence off. -/
def wrapLoop (w : Nat) : Nat → Nat → Int → Nat × Int
  | 0, cl, co => (cl, co)
  | fuel + 1, cl, co =>
    if co > (w : Int) then wrapLoop w fuel (cl + 1) (co - (w : Int))
    else (cl, co)

/-- The `while buffer.cursor_line >= len(folded_lines)` padding loop of
the cursor command: each `add_line(buffer, EMPTY_LINE)` appends exactly
one fold, so `cursor_line + 1 - len` iterations always finish it. -/
def ensureGo (st : TState) : Nat → TState
  | 0 => st
  | fuel + 1 =>
    if st.buffer.cursor_line ≥ st.buffer.folded_lines.length then
      ensureGo (addLine st [] NULL_STYLE) fuel
    else st

def ensureCursor (st : TState) : TState :=
  ensureGo st (st.buffer.cursor_line + 1 - st.buffer.folded_lines.length)

/-- The cursor-motion tail of the `ANSICursor` handler (`delta_x` with
fold wrapping, `absolute_x`, `delta_y`/`absolute_y` clamped at 0, and the
`_line_updated` pair when the cursor changed line; `content.simplify()`
does not change cell content and is dropped). -/
def cursorMoves (st : TState) (cc : CursorCmd) : TState :=
  let b := st.buffer
  let p1 :=
    match cc.delta_x with
    | some dx =>
      let co := b.cursor_offset + dx
      wrapLoop st.width co.toNat b.cursor_line co
    | none => (b.cursor_line, b.cursor_offset)
  let cl1 := p1.1
  let co1 := p1.2
  let co2 := match cc.absolute_x with | some ax => ax | none => co1
  let currentCursorLine := cl1
  let cl2 := match cc.delta_y with | some dy => ((cl1 : Int) + dy).toNat | none => cl1
  let cl3 := match cc.absolute_y with | some ay => ay.toNat | none => cl2
  let st1 := st.setBuffer { b with cursor_line := cl3, cursor_offset := co2 }
  if currentCursorLine ≠ cl3 then
    lineUpdated (lineUpdated st1 (currentCursorLine : Int)) (cl3 : Int)
  else st1

/-- The text-writing phase of the `ANSICursor` handler, already past
charset translation: pad to the cursor column, then replace-range,
append, overwrite or insert, and hand the result to `update_line`.
The source's `previous_content.is_same(folded_line.content)` test
compares a local fold tuple with itself and is always true, so the
`buffer.updates` bump guarded by it never runs and is omitted. -/
def cursorText (st : TState) (cc : CursorCmd) (eff : Nat) (lineNo : Int)
    (content : List Char) : TState :=
  let b := st.buffer
  let clo := getCursorLineOffset b
  let lr := (b.lines.get? eff).getD defaultRecord
  let pp :=
    if clo > (lr.content.length : Int) then
      let padded := lr.content ++ List.replicate (clo - (lr.content.length : Int)).toNat ' '
      (st.setBuffer { b with lines := b.lines.set eff { lr with content := padded } },
        padded)
    else (st, lr.content)
  let stP := pp.1
  let lineContent := pp.2
  let updatedLine :=
    match cc.replace with
    | some _ =>
      let ro := getReplaceOffsets cc clo lineContent.length
      let u := pySliceTo lineContent ro.1 ++ content ++
        pySliceFrom lineContent (ro.2 + 1)
      if u.length < stP.width then u ++ List.replicate (stP.width - u.length) ' '
      else u
    | none =>
      if clo = (lineContent.length : Int) then lineContent ++ content
      else if stP.replace_mode then
        pySliceTo lineContent clo ++ content ++
          pySliceFrom lineContent (clo + (content.length : Int))
      else
        pySliceTo lineContent clo ++ content ++ pySliceFrom lineContent clo
  updateLine stP lineNo updatedLine

/-- The `ANSICursor` case of `_handle_ansi_command`: pad folds to the
cursor, divert to a scroll when `auto_scroll` crosses a margin, apply
`update_background`, write text, then move the cursor. -/
def handleCursor (st0 : TState) (cc : CursorCmd) : TState :=
  let st := ensureCursor st0
  let b := st.buffer
  let doScroll : Option TState :=
    match cc.delta_y with
    | some dy =>
      if cc.auto_scroll then
        let startLineNo : Int := (b.lines.length : Int) - st.height
        let scrollCursor : Int := (b.cursor_line : Int) + dy
        if dy = 1 ∧ scrollCursor ≥ startLineNo + (b.scroll_margin.2.getD 0) then
          some (scrollBuffer st (-1) 1)
        else if dy = -1 ∧ scrollCursor ≤ startLineNo + (b.scroll_margin.1.getD 0) then
          some (scrollBuffer st 1 1)
        else none
      else none
    | none => none
  match doScroll with
  | some st2 => st2
  | none =>
    let foldedLine := (b.folded_lines.get? b.cursor_line).getD defaultFold
    let lineNo := foldedLine.line_no
    match pyIdxNorm b.lines.length lineNo with
    | none => st
    | some eff =>
      let stB :=
        if cc.update_background then
          let lr := (b.lines.get? eff).getD defaultRecord
          st.setBuffer { b with lines := b.lines.set eff { lr with style := st.style } }
        else st
      match cc.text with
      | none => cursorMoves stB cc
      | some text =>
        match stB.dec_state.translate text with
        | none => stB
        | some (dec2, content) =>
          let stT := { stB with dec_state := dec2 }
          cursorMoves (cursorText stT cc eff lineNo content) cc

/-- `TerminalState._handle_ansi_command`. -/
def handleCmd (st : TState) (cmd0 : Cmd) : TState :=
  let cmd :=
    match cmd0 with
    | .newline =>
      if st.alternate_screen then
        Cmd.cursor { mkCursor with delta_y := some 1 }
      else
        Cmd.cursor { mkCursor with delta_y := some 1, absolute_x := some 0 }
    | c => c
  match cmd with
  | .style s => { st with style := s }
  | .cursor cc => handleCursor st cc
  | .features f =>
    { st with
      show_cursor := f.show_cursor.getD st.show_cursor
      alternate_screen := f.alternate_screen.getD st.alternate_screen
      bracketed_paste := f.bracketed_paste.getD st.bracketed_paste
      cursor_blink := f.cursor_blink.getD st.cursor_blink
      cursor_keys := f.cursor_keys.getD st.cursor_keys
      auto_wrap := f.auto_wrap.getD st.auto_wrap }
  | .clear k => clearBuffer st k
  | .scrollMargin top bottom =>
    let b := st.buffer
    let st1 := st.setBuffer { b with scroll_margin := (top, bottom) }
    let st2 := lineUpdated st1 (st1.buffer.cursor_line : Int)
    let b2 := st2.buffer
    let st3 := st2.setBuffer { b2 with cursor_line := 0, cursor_offset := 0 }
    lineUpdated st3 0
  | .scroll direction lines => scrollBuffer st direction lines
  | .charset dec inv => { st with dec_state := st.dec_state.update dec inv }
  | .workingDir p => { st with current_directory := p }
  | .mouse m =>
    let mt := st.mouse_tracking
    { st with mouse_tracking :=
      ⟨m.tracking.getD mt.tracking, m.format.getD mt.format,
        m.focus_events.getD mt.focus_events,
        m.alternate_scroll.getD mt.alternate_scroll⟩ }
  | .newline => st
  | .err => st

/-- `TerminalState.write`: feed the owned stream and apply every command
in order. -/
def writeT (st : TState) (text : List Char) : TState :=
  let r := feedStream st.stream text
  r.2.foldl handleCmd { st with stream := r.1 }

/-- Run the tokenizer alone over an input, from the idle state. -/
def tokenize (s : List Char) : List Token :=
  (s.foldl
    (fun (acc : TokState × List Token) c =>
      let p := tokStep acc.1 c
      (p.1, acc.2 ++ p.2))
    (TokState.content [], [])).2

/-- Everything of a `LineFold` except the `updates` snapshot. -/
def foldKey (f : LineFold) : Int × Nat × Nat × List Char :=
  (f.line_no, f.line_offset, f.offset, f.content)

/-- A `DECState` with a pending single shift on slot 3 (whose default
charset `"0"` has a translation table). -/
def shiftedDEC : DECStateM := { initDEC with shift := some 3 }

/-- A one-line terminal used to exhibit the reflow updates drift. -/
def reflowDemo : TState := addLine (initT 5 3) "abcdefg".toList NULL_STYLE

/-- A concrete 11-line terminal with margin `[2, 10]`. -/
def scrollDemoBase : TState :=
  (List.range 11).foldl
    (fun s i => addLine s [Char.ofNat (97 + i)] NULL_STYLE) (initT 80 24)

def scrollDemo : TState :=
  scrollDemoBase.setBuffer
    { scrollDemoBase.buffer with scroll_margin := (some 2, some 10) }

/-- The fold-count prefix sums: entry `i` is the total fold count of the
first `i` elements. -/
def prefixSums : List Nat → Nat → List Nat
  | [], _ => []
  | n :: rest, acc => acc :: prefixSums rest (acc + n)

/-- The abstract form of the rebuild loops: append one `line_to_fold`
entry and the folds of each record in turn. -/
def buildTail : List LineRecord → List Nat → List LineFold →
    List Nat × List LineFold
  | [], ltf, folded => (ltf, folded)
  | lr :: rs, ltf, folded => buildTail rs (ltf ++ [folded.length]) (folded ++ lr.folds)

/-- The claimed buffer invariant: `folded_lines` is the in-order
concatenation of every line's folds, and `line_to_fold` holds the prefix
fold counts. -/
def StructInv (b : BufferM) : Prop :=
  b.folded_lines = (b.lines.map (·.folds)).flatten
  ∧ b.line_to_fold = prefixSums (b.lines.map (·.folds.length)) 0

instance (b : BufferM) : Decidable (StructInv b) := by
  unfold StructInv; infer_instance

/-- Every stored fold refers to a nonnegative line number. -/
def foldsOK (b : BufferM) : Prop :=
  ∀ lr ∈ b.lines, ∀ f ∈ lr.folds, 0 ≤ f.line_no

/-- The scroll-margin top, when set, is nonnegative (`top or 0` elsewhere
then never sends a negative index into `update_line`). -/
def marginOK (b : BufferM) : Prop := 0 ≤ b.scroll_margin.1.getD 0

instance (b : BufferM) : Decidable (foldsOK b) := by
  unfold foldsOK; infer_instance

instance (b : BufferM) : Decidable (marginOK b) := by
  unfold marginOK; infer_instance

/-- The inductive invariant carried through the engine operations. -/
def BInv (b : BufferM) : Prop := StructInv b ∧ foldsOK b ∧ marginOK b

instance (b : BufferM) : Decidable (BInv b) := by
  unfold BInv; infer_instance

def Inv2 (st : TState) : Prop := BInv st.scrollback_buffer ∧ BInv st.alternate_buffer

instance (st : TState) : Decidable (Inv2 st) := by
  unfold Inv2; infer_instance

/-- An engine operation of the claim: the buffer mutators and command
application. -/
inductive EngineOp
  | addLineOp (content : List Char) (style : StyleM)
  | updateLineOp (idx : Int) (content : List Char)
  | clearOp
  | reflowOp
  | handleOp (cmd : Cmd)
deriving DecidableEq, Repr

/-- Apply one engine operation (buffer operations act on the active
buffer, as every call site in the source does). -/
def applyOp (st : TState) : EngineOp → TState
  | .addLineOp c s => addLine st c s
  | .updateLineOp idx c => updateLine st idx c
  | .clearOp =>
    let st1 := st.advanceUpdates.1
    st1.setBuffer (clearBuf st1.buffer st1.updates)
  | .reflowOp => reflow st
  | .handleOp cmd => handleCmd st cmd

/-- The operations under which the invariant is provable: `update_line`
is not handed a negative index, and scroll margins are not set with a
negative top (a `CSI 0;…r` margin stores top = -1, and a scroll inside
it calls `update_line(-1)`, which corrupts the folded structures). -/
def opOK : EngineOp → Prop
  | .updateLineOp idx _ => 0 ≤ idx
  | .handleOp (.scrollMargin top _) => 0 ≤ top.getD 0
  | _ => True

instance (op : EngineOp) : Decidable (opOK op) := by
  unfold opOK
  cases op with
  | handleOp cmd => cases cmd <;> infer_instance
  | _ => infer_instance

/-- The op sequence of the C2 counterexample: one line of content, then
the commands decoded from `\x1b[0;0r` (margin top = -1) and `\x1b[1S`. -/
def badOps : List EngineOp :=
  [.addLineOp ['x'] NULL_STYLE,
   .handleOp (.scrollMargin (some (-1)) (some (-1))),
   .handleOp (.scroll (-1) 1)]

/-! ## Theorems -/

/-- Feeding `xs ++ ys` equals feeding `xs` then `ys` from the reached
state, with the command lists concatenated. -/
lemma feedStream_append (xs ys : List Char) : ∀ st : StreamSt,
    feedStream st (xs ++ ys) =
      ((feedStream (feedStream st xs).1 ys).1,
        (feedStream st xs).2 ++ (feedStream (feedStream st xs).1 ys).2) := by
  induction xs with
  | nil => intro st; simp [feedStream]
  | cons c rest ih =>
    intro st
    show feedStream st (c :: (rest ++ ys)) = _
    simp only [feedStream]
    rw [ih]
    simp [List.append_assoc]

/-- C1: for every input and every partition of it into consecutive
chunks, feeding the chunks one `feed` call at a time to a fresh
`ANSIStream` produces exactly the same command sequence, in the same
order, as feeding the whole input in one call (the reached stream state
is also the same, covering chunk boundaries inside escape sequences). -/
theorem feed_chunked_eq_feed_whole (chunks : List (List Char)) :
    (feedChunks initStream chunks).2 = (feedStream initStream chunks.flatten).2 := by
  suffices h : ∀ st : StreamSt, feedChunks st chunks = feedStream st chunks.flatten by
    rw [h initStream]
  induction chunks with
  | nil => intro st; simp [feedChunks, feedStream]
  | cons c rest ih =>
    intro st
    simp only [feedChunks, List.flatten_cons]
    rw [feedStream_append, ih]

lemma divideGo_length {α : Type} (offs : List Nat) :
    ∀ (l : List α) (prev : Nat), (divideGo l prev offs).length = offs.length + 1 := by
  induction offs with
  | nil => intro l prev; simp [divideGo]
  | cons o rest ih => intro l prev; simp [divideGo, ih]

lemma divideAbs_length {α : Type} (l : List α) (offs : List Nat) :
    (divideAbs l offs).length = offs.length + 1 := by
  cases offs with
  | nil => simp [divideAbs]
  | cons o rest => simp [divideAbs, divideGo_length]

/-- C3: with `auto_wrap` on and a positive width, `_fold_line` produces
exactly `max 1 ⌈L/w⌉` folds for a line of cell-length `L`; with
`auto_wrap` off it produces exactly one fold spanning the whole content,
regardless of `L`. -/
theorem fold_line_count (st : TState) (line_no : Int) (line : List Char) (w : Nat) :
    (st.auto_wrap = true → 0 < w →
      (st.foldLine line_no line w).length = max 1 ((line.length + w - 1) / w))
    ∧ (st.auto_wrap = false →
      st.foldLine line_no line w = [⟨line_no, 0, 0, line, st.updates⟩]) := by
  constructor
  · intro haw hw
    have hw0 : ¬ w = 0 := Nat.pos_iff_ne_zero.mp hw
    simp only [TState.foldLine, foldLineP, haw, hw0, if_false,
      Bool.true_eq_false]
    by_cases hL : line.length ≤ w
    · simp only [hL, if_true, List.length_singleton]
      have h2 : (line.length + w - 1) / w < 2 := by
        rw [Nat.div_lt_iff_lt_mul hw]; omega
      generalize (line.length + w - 1) / w = k at h2
      omega
    · simp only [hL, if_false, List.length_map, List.enum_length,
        List.length_zip, List.length_cons, List.length_range',
        divideAbs_length]
      push_neg at hL
      have hL1 : line.length + w - 1 = (line.length - 1) + w := by omega
      rw [hL1, Nat.add_div_right _ hw]
      generalize (line.length - 1) / w = k
      omega
  · intro haw
    simp [TState.foldLine, foldLineP, haw]

/-- Witness for `fold_line_count` at a 10-cell line and width 3. -/
theorem fold_line_count_witness :
    ((initT 80 24).foldLine 0 "abcdefghij".toList 3).length = 4
    ∧ ({ initT 80 24 with auto_wrap := false } : TState).foldLine 0
        "abcdefghij".toList 3 = [⟨0, 0, 0, "abcdefghij".toList, 0⟩] := by
  constructor
  · have h := (fold_line_count (initT 80 24) 0 "abcdefghij".toList 3).1 rfl
      (by decide)
    simpa using h
  · exact (fold_line_count { initT 80 24 with auto_wrap := false } 0
      "abcdefghij".toList 3).2 rfl

/-- C4 (refutation of never-raising): `_parse_csi` on the plain scroll-up
sequence `CSI S` calls `int("")`, and `_parse_sgr` on a colon-separated
SGR parameter string calls `int` on a non-numeric field; both raise
`ValueError` (the `Except.error` of the embedding) instead of returning a
value or `None`. -/
theorem decode_raises_on_csi_scroll_and_colon_sgr :
    parseCsi "\x1b[S".toList = .error ()
    ∧ parseSgr "38:2:0:0:0".toList = .error () := by decide

/-- C5 (refutation of length preservation): with a single shift pending,
`translate("qq")` returns the shifted first character followed by the GL
translation of the *entire* input, so the result has 3 characters for a
2-character input (the claim requires 2); the pending shift is cleared. -/
theorem translate_shift_duplicates_first :
    shiftedDEC.translate "qq".toList = some (initDEC, '─' :: "qq".toList)
    ∧ (shiftedDEC.translate "qq".toList).map (fun p => p.2.length) = some 3 := by
  decide

/-- C6 counterexample: a second `_reflow` with unchanged width and height
does not leave `folded_lines` bit-identical, because every fold's
`updates` snapshot advances. -/
theorem reflow_second_changes_folded :
    (reflow (reflow reflowDemo)).buffer.folded_lines ≠
      (reflow reflowDemo).buffer.folded_lines := by decide

lemma foldLineP_key (aw : Bool) (u1 u2 : Nat) (n : Int) (l : List Char) (w : Nat) :
    (foldLineP aw u1 n l w).map foldKey = (foldLineP aw u2 n l w).map foldKey := by
  simp only [foldLineP]
  by_cases haw : aw <;> by_cases hw : w = 0 <;>
    by_cases hL : l.length ≤ w <;>
      simp [haw, hw, hL, foldKey, List.map_map, Function.comp]

lemma reflowGo_lines_content (aw : Bool) (w : Nat) :
    ∀ (ls : List LineRecord) (n upd : Nat) (ltf : List Nat) (folded : List LineFold),
      ((reflowGo aw w ls n upd ltf folded).1).map (·.content) = ls.map (·.content) := by
  intro ls
  induction ls with
  | nil => intro n upd ltf folded; simp [reflowGo]
  | cons lr rest ih => intro n upd ltf folded; simp [reflowGo, ih]

lemma reflowGo_folded_keys (aw : Bool) (w : Nat) :
    ∀ (ls1 ls2 : List LineRecord) (n u1 u2 : Nat) (ltf1 ltf2 : List Nat)
      (folded1 folded2 : List LineFold),
      ls1.map (·.content) = ls2.map (·.content) →
      folded1.map foldKey = folded2.map foldKey →
      (reflowGo aw w ls1 n u1 ltf1 folded1).2.2.1.map foldKey
        = (reflowGo aw w ls2 n u2 ltf2 folded2).2.2.1.map foldKey := by
  intro ls1
  induction ls1 with
  | nil =>
    intro ls2 n u1 u2 ltf1 ltf2 folded1 folded2 hc hf
    cases ls2 with
    | nil => simpa [reflowGo] using hf
    | cons b bs => simp at hc
  | cons a as ih =>
    intro ls2 n u1 u2 ltf1 ltf2 folded1 folded2 hc hf
    cases ls2 with
    | nil => simp at hc
    | cons b bs =>
      simp only [List.map_cons, List.cons.injEq] at hc
      simp only [reflowGo]
      refine ih bs (n + 1) (u1 + 1) (u2 + 1) _ _ _ _ hc.2 ?_
      rw [List.map_append, List.map_append, hf, hc.1, foldLineP_key aw u1 u2]

lemma setBuffer_buffer (st : TState) (b : BufferM) :
    (st.setBuffer b).buffer = b := by
  by_cases h : st.alternate_screen <;>
    simp [TState.setBuffer, TState.buffer, h]

lemma setBuffer_auto_wrap (st : TState) (b : BufferM) :
    (st.setBuffer b).auto_wrap = st.auto_wrap := by
  by_cases h : st.alternate_screen <;> simp [TState.setBuffer, h]

lemma setBuffer_width (st : TState) (b : BufferM) :
    (st.setBuffer b).width = st.width := by
  by_cases h : st.alternate_screen <;> simp [TState.setBuffer, h]

lemma setBuffer_setBuffer (st : TState) (b1 b2 : BufferM) :
    (st.setBuffer b1).setBuffer b2 = st.setBuffer b2 := by
  by_cases h : st.alternate_screen <;> simp [TState.setBuffer, h]

lemma setUpdates_buffer (st : TState) (u : Nat) :
    (st.setUpdates u).buffer = st.buffer := rfl

lemma setUpdates_auto_wrap (st : TState) (u : Nat) :
    (st.setUpdates u).auto_wrap = st.auto_wrap := rfl

lemma setUpdates_width (st : TState) (u : Nat) :
    (st.setUpdates u).width = st.width := rfl

/-- The buffer after one `_reflow` on a state whose active buffer has
lines: folds are rebuilt and contents kept. -/
lemma reflow_buffer_facts (st : TState) (h : ¬ st.buffer.lines = []) :
    (reflow st).buffer.folded_lines
        = (reflowGo st.auto_wrap st.width st.buffer.lines 0 st.updates [] []).2.2.1
    ∧ (reflow st).buffer.lines.map (·.content) = st.buffer.lines.map (·.content)
    ∧ (reflow st).auto_wrap = st.auto_wrap
    ∧ (reflow st).width = st.width := by
  have hrw : reflow st = reflowCore st := by simp [reflow, h]
  rw [hrw]
  simp only [reflowCore]
  by_cases hc : st.buffer.cursorPos.1 ≥
      ((reflowGo st.auto_wrap st.width st.buffer.lines 0 st.updates [] []).1.length : Int)
  · rw [if_pos hc]
    simp [setBuffer_buffer, setUpdates_buffer, setUpdates_auto_wrap,
      setUpdates_width, setBuffer_auto_wrap, setBuffer_width,
      reflowGo_lines_content]
  · rw [if_neg hc]
    simp [setBuffer_buffer, setUpdates_buffer, setUpdates_auto_wrap,
      setUpdates_width, setBuffer_auto_wrap, setBuffer_width,
      reflowGo_lines_content]

/-- C6 amended: `_reflow` is idempotent up to the `updates` snapshots:
a second reflow with unchanged width and height reproduces every fold's
`line_no`, `line_offset`, `offset` and `content` exactly (only the
`updates` snapshots advance, as the counterexample shows). -/
theorem reflow_idempotent_mod_updates (st : TState) :
    ((reflow (reflow st)).buffer.folded_lines).map foldKey
      = ((reflow st).buffer.folded_lines).map foldKey := by
  by_cases h : st.buffer.lines = []
  · simp [reflow, h]
  · have h1 := reflow_buffer_facts st h
    have hlines1 : (reflow st).buffer.lines.map (·.content)
        = st.buffer.lines.map (·.content) := h1.2.1
    have h2 : ¬ (reflow st).buffer.lines = [] := by
      intro he
      rw [he] at hlines1
      exact h (List.map_eq_nil_iff.mp hlines1.symm)
    have h3 := reflow_buffer_facts (reflow st) h2
    rw [h3.1, h1.1, h1.2.2.1, h1.2.2.2]
    exact reflowGo_folded_keys st.auto_wrap st.width _ _ 0 _ _ _ _ _ _
      hlines1 rfl

/-- C7 (refutation): the tokenizer emits the charset-designation token
with tag `csd`, but `on_token` dispatches charset designations on the tag
`dec`, so `ESC ( 0` produces no `CharacterSet` command at all and
`DECState` slot 0 keeps its default `"B"` instead of becoming `"0"`. -/
theorem charset_designation_produces_no_command :
    tokenize "\x1b(0".toList = [("csd", "\x1b(0".toList)]
    ∧ (feedStream initStream "\x1b(0".toList).2 = []
    ∧ (writeT (initT 80 24) "\x1b(0".toList).dec_state = initDEC := by decide

/-- C9 (refutation): the `ANSIFeatures` arm of `_handle_ansi_command`
applies every feature flag except `replace_mode`, so a `Features` command
with `replace_mode` set never updates `TerminalState.replace_mode`; in
particular `ESC [ 4 l` (decoded to `Features(replace_mode=False)`) leaves
`replace_mode` at its default `True`. -/
theorem replace_mode_never_applied :
    (∀ (st : TState) (f : FeaturesCmd),
      (handleCmd st (.features f)).replace_mode = st.replace_mode)
    ∧ (feedStream initStream "\x1b[4l".toList).2
        = [.features { mkFeatures with replace_mode := some false }]
    ∧ (writeT (initT 80 24) "\x1b[4l".toList).replace_mode = true := by
  refine ⟨fun st f => rfl, by decide, by decide⟩

/-- C10: an SGR parameter 0 resets immediately and discards the rest:
the decode loop returns the reset signal on `0 :: rest` for every `rest`,
`_parse_sgr("0;31")` is the reset, and feeding `ESC [ 0 ; 3 1 m` to a
fresh stream emits exactly one `Style` command carrying the null style
(no red foreground), leaving the pen null. -/
theorem sgr_zero_resets :
    (∀ (style : StyleM) (rest : List Int), sgrLoop style (0 :: rest) = .ok none)
    ∧ parseSgr "0;31".toList = .ok none
    ∧ (feedStream initStream "\x1b[0;31m".toList).2 = [.style NULL_STYLE]
    ∧ (feedStream initStream "\x1b[0;31m".toList).1.style = NULL_STYLE := by
  refine ⟨fun style rest => rfl, by decide, by decide, by decide⟩

lemma addEmptyN_zero (st : TState) : addEmptyN st 0 = st := rfl

lemma padLines_of_lt (st : TState) (idx : Int)
    (h : idx < (st.buffer.lines.length : Int)) : padLines st idx = st := by
  unfold padLines
  have h0 : (idx + 1 - (st.buffer.lines.length : Int)).toNat = 0 := by omega
  rw [h0]
  rfl

lemma pyIdxNorm_of_nonneg (len : Nat) (i : Int) (h0 : 0 ≤ i)
    (hl : i < (len : Int)) : pyIdxNorm len i = some i.toNat := by
  simp [pyIdxNorm, h0, hl]

lemma pyIdx_nonneg {α : Type} (l : List α) (i : Int) (h0 : 0 ≤ i)
    (hl : i < (l.length : Int)) : pyIdx l i = l.get? i.toNat := by
  simp [pyIdx, pyIdxNorm_of_nonneg _ _ h0 hl]

lemma map_content_set (l : List LineRecord) (n : Nat) (lr : LineRecord) :
    (l.set n lr).map (·.content) = (l.map (·.content)).set n lr.content := by
  induction l generalizing n with
  | nil => simp
  | cons a as ih =>
    cases n with
    | zero => simp
    | succ m => simp [ih]

/-- `update_line` at a valid nonnegative index: the target line's content
is replaced, every other line's content, the line count and the scroll
margin are unchanged (the folded structures are rebuilt, which this lemma
does not describe). -/
lemma updateLine_content (st : TState) (idx : Int) (c : List Char)
    (h0 : 0 ≤ idx) (hlt : idx < (st.buffer.lines.length : Int)) :
    (updateLine st idx c).buffer.lines.map (·.content)
      = (st.buffer.lines.map (·.content)).set idx.toNat c
    ∧ (updateLine st idx c).buffer.lines.length = st.buffer.lines.length
    ∧ (updateLine st idx c).buffer.scroll_margin = st.buffer.scroll_margin := by
  rw [updateLine, padLines_of_lt st idx hlt]
  simp only [updateLineCore, setBuffer_buffer, setUpdates_buffer,
    TState.advanceUpdates]
  rw [pyIdxNorm_of_nonneg _ _ h0 (by simpa using hlt)]
  simp only []
  cases h2 : pyIdx (st.buffer.line_to_fold) idx with
  | none =>
    simp [h2, setBuffer_buffer, setUpdates_buffer, map_content_set,
      List.length_set]
  | some fl =>
    simp [h2, setBuffer_buffer, setUpdates_buffer, map_content_set,
      List.length_set]

lemma intRange_cons (a b : Int) (h : a < b) :
    intRange a b = a :: intRange (a + 1) b := by
  have hk : (b - a).toNat = (b - (a + 1)).toNat + 1 := by omega
  simp only [intRange, hk, intRangeGo]

lemma intRange_empty (a b : Int) (h : ¬ a < b) : intRange a b = [] := by
  have hk : (b - a).toNat = 0 := by omega
  simp only [intRange, hk, intRangeGo]

/-- The upward scroll loop from index `a`: processing `[a, bm]` realises
the one-line upward shift pointwise. -/
lemma scrollUp_go (bm : Int) (k : Nat) :
    ∀ (a : Int) (st : TState), a + (k : Int) = bm + 1 → 0 ≤ a →
      bm < (st.buffer.lines.length : Int) →
      (∀ j : Nat,
        (((intRange a (bm + 1)).foldl (scrollUpStep bm 1) st).buffer.lines.map
            (·.content))[j]?
          = (if a ≤ (j : Int) ∧ (j : Int) < bm then
              (st.buffer.lines.map (·.content))[j + 1]?
            else if (j : Int) = bm ∧ a ≤ bm then some []
            else (st.buffer.lines.map (·.content))[j]?))
      ∧ ((intRange a (bm + 1)).foldl (scrollUpStep bm 1) st).buffer.lines.length
          = st.buffer.lines.length := by
  induction k with
  | zero =>
    intro a st ha h0 hlen
    have hnb : ¬ a < bm + 1 := by omega
    rw [intRange_empty _ _ hnb]
    refine ⟨fun j => ?_, rfl⟩
    have c1 : ¬ (a ≤ (j : Int) ∧ (j : Int) < bm) := by omega
    have c2 : ¬ ((j : Int) = bm ∧ a ≤ bm) := by omega
    rw [if_neg c1, if_neg c2]
    simp only [List.foldl_nil]
  | succ n ih =>
    intro a st ha h0 hlen
    have hab : a < bm + 1 := by omega
    rw [intRange_cons _ _ hab]
    simp only [List.foldl_cons]
    have hstep : scrollUpStep bm 1 st a = updateLine st a
        (if a + 1 > bm then []
          else ((pyIdx st.buffer.lines (a + 1)).map (·.content)).getD []) := rfl
    have hlt : a < (st.buffer.lines.length : Int) := by omega
    have hupd := updateLine_content st a
      (if a + 1 > bm then []
        else ((pyIdx st.buffer.lines (a + 1)).map (·.content)).getD [])
      h0 hlt
    have hlen2 : bm <
        ((scrollUpStep bm 1 st a).buffer.lines.length : Int) := by
      rw [hstep, hupd.2.1]; exact hlen
    have ihr := ih (a + 1) (scrollUpStep bm 1 st a) (by omega) (by omega) hlen2
    refine ⟨fun j => ?_, by rw [ihr.2, hstep, hupd.2.1]⟩
    rw [ihr.1 j]
    have hset : (scrollUpStep bm 1 st a).buffer.lines.map (·.content)
        = (st.buffer.lines.map (·.content)).set a.toNat
          (if a + 1 > bm then []
            else ((pyIdx st.buffer.lines (a + 1)).map (·.content)).getD []) := by
      rw [hstep, hupd.1]
    rw [hset]
    by_cases hj1 : a + 1 ≤ (j : Int) ∧ (j : Int) < bm
    · rw [if_pos hj1, if_pos (show a ≤ (j : Int) ∧ (j : Int) < bm by omega)]
      exact List.getElem?_set_ne (by omega)
    · by_cases hj2 : (j : Int) = bm ∧ a + 1 ≤ bm
      · rw [if_neg hj1, if_pos hj2, if_neg (show ¬ (a ≤ (j : Int) ∧ (j : Int) < bm) by omega),
          if_pos (show (j : Int) = bm ∧ a ≤ bm by omega)]
      · by_cases hja : (j : Int) = a
        · have hjn : a.toNat = j := by omega
          have hjl : a.toNat < (st.buffer.lines.map (·.content)).length := by
            simp only [List.length_map]; omega
          have hval : ((st.buffer.lines.map (·.content)).set a.toNat
              (if a + 1 > bm then []
                else ((pyIdx st.buffer.lines (a + 1)).map (·.content)).getD []))[j]?
              = some (if a + 1 > bm then []
                else ((pyIdx st.buffer.lines (a + 1)).map (·.content)).getD []) := by
            rw [← hjn]
            exact List.getElem?_set_eq_of_lt _ hjl
          rw [if_neg hj1, if_neg hj2, hval]
          by_cases hbm : a + 1 > bm
          · rw [if_neg (show ¬ (a ≤ (j : Int) ∧ (j : Int) < bm) by omega),
              if_pos (show (j : Int) = bm ∧ a ≤ bm by omega), if_pos hbm]
          · rw [if_pos (show a ≤ (j : Int) ∧ (j : Int) < bm by omega), if_neg hbm]
            have hidx : pyIdx st.buffer.lines (a + 1)
                = st.buffer.lines.get? (a + 1).toNat :=
              pyIdx_nonneg _ _ (by omega) (by omega)
            have hv : (a + 1).toNat = j + 1 := by omega
            have hj1l : j + 1 < st.buffer.lines.length := by omega
            rw [hidx, hv, List.get?_eq_getElem?,
              List.getElem?_eq_getElem hj1l]
            have hj1m : j + 1 < (st.buffer.lines.map (·.content)).length := by
              simp only [List.length_map]; omega
            rw [List.getElem?_eq_getElem hj1m]
            simp
        · rw [if_neg hj1, if_neg hj2,
            if_neg (show ¬ (a ≤ (j : Int) ∧ (j : Int) < bm) by omega),
            if_neg (show ¬ ((j : Int) = bm ∧ a ≤ bm) by
              intro hcon
              exact hj2 ⟨hcon.1, by omega⟩)]
          exact List.getElem?_set_ne (by omega)

/-- C8: with scroll margin `[2, 10]` on the active buffer and at least 11
lines, a one-line scroll-up (`scroll_buffer(-1, 1)`) replaces the content
of every row 2-9 with the previous content of rows 3-10, fills row 10
with a blank line, and leaves every row outside `[2, 10]` unchanged. -/
theorem scroll_up_margin_2_10 (st : TState)
    (hm : st.buffer.scroll_margin = (some 2, some 10))
    (hn : 11 ≤ st.buffer.lines.length) :
    (∀ i : Nat, 2 ≤ i → i ≤ 9 →
      ((scrollBuffer st (-1) 1).buffer.lines[i]?).map (·.content)
        = (st.buffer.lines[i + 1]?).map (·.content))
    ∧ ((scrollBuffer st (-1) 1).buffer.lines[(10 : Nat)]?).map (·.content) = some []
    ∧ (∀ i : Nat, i < 2 ∨ 10 < i →
      ((scrollBuffer st (-1) 1).buffer.lines[i]?).map (·.content)
        = (st.buffer.lines[i]?).map (·.content)) := by
  have hrw : scrollBuffer st (-1) 1
      = (intRange 2 11).foldl (scrollUpStep 10 1) st := by
    simp [scrollBuffer, hm, getLineRange]
  have hgo := scrollUp_go 10 9 2 st (by omega) (by omega) (by omega)
  have h1110 : (10 : Int) + 1 = 11 := by norm_num
  rw [h1110] at hgo
  have hget : ∀ j : Nat,
      ((scrollBuffer st (-1) 1).buffer.lines[j]?).map (·.content)
        = (((intRange 2 11).foldl (scrollUpStep 10 1) st).buffer.lines.map
            (·.content))[j]? := by
    intro j
    rw [hrw, List.getElem?_map]
  refine ⟨?_, ?_, ?_⟩
  · intro i h2 h9
    rw [hget i, hgo.1 i,
      if_pos (show (2 : Int) ≤ (i : Int) ∧ (i : Int) < 10 by omega),
      List.getElem?_map]
  · rw [hget 10, hgo.1 10, if_neg (by omega),
      if_pos (show ((10 : Nat) : Int) = 10 ∧ (2 : Int) ≤ 10 by omega)]
  · intro i hi
    rw [hget i, hgo.1 i,
      if_neg (show ¬ ((2 : Int) ≤ (i : Int) ∧ (i : Int) < 10) by omega),
      if_neg (show ¬ (((i : Nat) : Int) = 10 ∧ (2 : Int) ≤ 10) by omega),
      List.getElem?_map]

/-- Witness for `scroll_up_margin_2_10` on an 11-line buffer holding the
letters a-k. -/
theorem scroll_up_margin_2_10_witness :
    ((scrollBuffer scrollDemo (-1) 1).buffer.lines[(2 : Nat)]?).map (·.content)
        = some ['d']
    ∧ ((scrollBuffer scrollDemo (-1) 1).buffer.lines[(10 : Nat)]?).map (·.content)
        = some []
    ∧ ((scrollBuffer scrollDemo (-1) 1).buffer.lines[(0 : Nat)]?).map (·.content)
        = some ['a'] := by
  have h := scroll_up_margin_2_10 scrollDemo (by decide) (by decide)
  refine ⟨?_, h.2.1, ?_⟩
  · rw [h.1 2 (by omega) (by omega)]; decide
  · rw [h.2.2 0 (Or.inl (by omega))]; decide

lemma prefixSums_length (ns : List Nat) : ∀ acc, (prefixSums ns acc).length = ns.length := by
  induction ns with
  | nil => intro acc; rfl
  | cons n rest ih => intro acc; simp [prefixSums, ih]

lemma prefixSums_snoc (ns : List Nat) (m : Nat) : ∀ acc,
    prefixSums (ns ++ [m]) acc = prefixSums ns acc ++ [acc + ns.sum] := by
  induction ns with
  | nil => intro acc; simp [prefixSums]
  | cons n rest ih =>
    intro acc
    have h1 : prefixSums ((n :: rest) ++ [m]) acc
        = acc :: prefixSums (rest ++ [m]) (acc + n) := rfl
    have h2 : acc + (n :: rest).sum = acc + n + rest.sum := by
      simp only [List.sum_cons]; omega
    rw [h1, ih (acc + n), h2]
    simp [List.cons_append, prefixSums]

lemma prefixSums_take (ns : List Nat) : ∀ (k : Nat) (acc : Nat),
    (prefixSums ns acc).take k = prefixSums (ns.take k) acc := by
  induction ns with
  | nil => intro k acc; simp [prefixSums]
  | cons n rest ih =>
    intro k acc
    cases k with
    | zero => simp [prefixSums]
    | succ m => simp [prefixSums, ih]

lemma prefixSums_get (ns : List Nat) : ∀ (k : Nat) (acc : Nat), k < ns.length →
    (prefixSums ns acc)[k]? = some (acc + (ns.take k).sum) := by
  induction ns with
  | nil => intro k acc h; simp at h
  | cons n rest ih =>
    intro k acc h
    cases k with
    | zero => simp [prefixSums]
    | succ m =>
      simp only [prefixSums, List.getElem?_cons_succ, List.take_succ_cons,
        List.sum_cons]
      rw [ih m (acc + n) (by simpa using h)]
      have : acc + n + (rest.take m).sum = acc + (n + (rest.take m).sum) := by omega
      rw [this]

lemma flatten_take {α : Type} (L : List (List α)) : ∀ k : Nat,
    L.flatten.take (((L.take k).map List.length).sum) = (L.take k).flatten := by
  induction L with
  | nil => intro k; simp
  | cons x rest ih =>
    intro k
    cases k with
    | zero => simp
    | succ m =>
      simp only [List.take_succ_cons, List.map_cons, List.sum_cons,
        List.flatten_cons, List.take_append_eq_append_take]
      rw [List.take_of_length_le (by omega), Nat.add_sub_cancel_left, ih m]

lemma take_set_self {α : Type} (l : List α) : ∀ (k : Nat) (a : α),
    (l.set k a).take k = l.take k := by
  induction l with
  | nil => intro k a; simp
  | cons x rest ih =>
    intro k a
    cases k with
    | zero => simp
    | succ m => simp [List.set_cons_succ, ih]

lemma buildTail_inv : ∀ (rest pre : List LineRecord),
    buildTail rest (prefixSums (pre.map (·.folds.length)) 0)
        ((pre.map (·.folds)).flatten)
      = (prefixSums ((pre ++ rest).map (·.folds.length)) 0,
          ((pre ++ rest).map (·.folds)).flatten) := by
  intro rest
  induction rest with
  | nil => intro pre; simp [buildTail]
  | cons lr rs ih =>
    intro pre
    simp only [buildTail]
    have h1 : (pre.map (·.folds.length)).sum
        = ((pre.map (·.folds)).flatten).length := by
      rw [List.length_flatten, List.map_map]
      rfl
    have h2 : prefixSums (pre.map (·.folds.length)) 0
          ++ [((pre.map (·.folds)).flatten).length]
        = prefixSums ((pre ++ [lr]).map (·.folds.length)) 0 := by
      have hm : (pre ++ [lr]).map (·.folds.length)
          = pre.map (·.folds.length) ++ [lr.folds.length] := by simp
      rw [hm, prefixSums_snoc]
      simp [h1]
    have h3 : (pre.map (·.folds)).flatten ++ lr.folds
        = ((pre ++ [lr]).map (·.folds)).flatten := by
      simp
    rw [h2, h3, ih (pre ++ [lr])]
    simp

lemma rebuildRange_eq_buildTail (lines : List LineRecord) :
    ∀ (m k : Nat), lines.length - k = m → k ≤ lines.length →
    ∀ (ltf : List Nat) (folded : List LineFold),
      rebuildRange lines (intRange (k : Int) (lines.length : Int)) ltf folded
        = buildTail (lines.drop k) ltf folded := by
  intro m
  induction m with
  | zero =>
    intro k hm hk ltf folded
    have hkl : k = lines.length := by omega
    have hnb : ¬ (k : Int) < (lines.length : Int) := by omega
    rw [intRange_empty _ _ hnb, hkl, List.drop_length]
    rfl
  | succ n ih =>
    intro k hm hk ltf folded
    have hkl : k < lines.length := by omega
    have hlt : (k : Int) < (lines.length : Int) := by omega
    rw [intRange_cons _ _ hlt]
    have hcast : (k : Int) + 1 = ((k + 1 : Nat) : Int) := by omega
    rw [hcast]
    simp only [rebuildRange]
    have hidx : pyIdx lines (k : Int) = some lines[k] := by
      rw [pyIdx_nonneg _ _ (by omega) (by omega)]
      simp [List.get?_eq_getElem?, List.getElem?_eq_getElem hkl]
    rw [hidx]
    simp only [Option.getD_some]
    rw [ih (k + 1) (by omega) (by omega), List.drop_eq_getElem_cons hkl]
    rfl

lemma foldLineP_nonneg (aw : Bool) (u : Nat) (n : Int) (hn : 0 ≤ n)
    (l : List Char) (w : Nat) :
    ∀ f ∈ foldLineP aw u n l w, 0 ≤ f.line_no := by
  intro f hf
  simp only [foldLineP] at hf
  split at hf
  · rw [List.mem_singleton] at hf; subst hf; exact hn
  · split at hf
    · rw [List.mem_singleton] at hf; subst hf; exact Int.le_refl 0
    · split at hf
      · rw [List.mem_singleton] at hf; subst hf; exact hn
      · rw [List.mem_map] at hf
        obtain ⟨p, hp, hfeq⟩ := hf
        subst hfeq
        exact hn

/-- A list `set` with the element already there is the identity. -/
lemma set_of_getElem_eq {α : Type} (l : List α) : ∀ (k : Nat) (a : α),
    l[k]? = some a → l.set k a = l := by
  induction l with
  | nil => intro k a h; simp at h
  | cons x rest ih =>
    intro k a h
    cases k with
    | zero => simp at h; simp [h]
    | succ m =>
      simp only [List.getElem?_cons_succ] at h
      simp [List.set_cons_succ, ih m a h]

lemma BInv_active (st : TState) (h : Inv2 st) : BInv st.buffer := by
  by_cases halt : st.alternate_screen
  · simpa [TState.buffer, halt] using h.2
  · simpa [TState.buffer, halt] using h.1

lemma inv2_setBuffer (st : TState) (b : BufferM) (h : Inv2 st) (hb : BInv b) :
    Inv2 (st.setBuffer b) := by
  by_cases halt : st.alternate_screen
  · simp only [TState.setBuffer, halt, if_true]
    exact ⟨h.1, hb⟩
  · simp only [TState.setBuffer, halt, if_false]
    exact ⟨hb, h.2⟩

lemma inv2_advance (st : TState) (h : Inv2 st) : Inv2 st.advanceUpdates.1 := h

lemma advance_buffer (st : TState) : st.advanceUpdates.1.buffer = st.buffer := rfl

/-- Appending one line record together with its folds preserves the
invariant. -/
lemma BInv_append (b : BufferM) (hb : BInv b) (lr : LineRecord)
    (hfolds : ∀ f ∈ lr.folds, 0 ≤ f.line_no) (u1 u2 : Nat) :
    BInv { b with
      lines := b.lines ++ [lr]
      line_to_fold := b.line_to_fold ++ [b.folded_lines.length]
      folded_lines := b.folded_lines ++ lr.folds
      updates := u1 } := by
  obtain ⟨⟨hfl, hltf⟩, hok, hm⟩ := hb
  refine ⟨⟨?_, ?_⟩, ?_, hm⟩
  · simp only [hfl, List.map_append, List.flatten_append]
    simp
  · have hmap : (b.lines ++ [lr]).map (·.folds.length)
        = b.lines.map (·.folds.length) ++ [lr.folds.length] := by simp
    simp only [hmap, prefixSums_snoc, hltf, hfl]
    rw [List.length_flatten, List.map_map]
    simp
    rfl
  · intro r hr f hf
    rcases List.mem_append.mp hr with h1 | h1
    · exact hok r h1 f hf
    · rw [List.mem_singleton] at h1
      subst h1
      exact hfolds f hf

lemma addLine_inv (st : TState) (c : List Char) (s : StyleM) (h : Inv2 st) :
    Inv2 (addLine st c s) := by
  refine inv2_setBuffer _ _ (inv2_advance st h) ?_
  exact BInv_append _ (BInv_active _ h) _
    (foldLineP_nonneg _ _ _ (by positivity) _ _) _ 0

lemma addLine_length (st : TState) (c : List Char) (s : StyleM) :
    (addLine st c s).buffer.lines.length = st.buffer.lines.length + 1 := by
  unfold addLine
  rw [setBuffer_buffer]
  simp [advance_buffer]

lemma addLine_margin (st : TState) (c : List Char) (s : StyleM) :
    (addLine st c s).buffer.scroll_margin = st.buffer.scroll_margin := by
  unfold addLine
  rw [setBuffer_buffer]
  rfl

lemma addEmptyN_inv (n : Nat) : ∀ st : TState, Inv2 st → Inv2 (addEmptyN st n) := by
  induction n with
  | zero => intro st h; exact h
  | succ m ih => intro st h; exact ih _ (addLine_inv st _ _ h)

lemma addEmptyN_length (n : Nat) : ∀ st : TState,
    (addEmptyN st n).buffer.lines.length = st.buffer.lines.length + n := by
  induction n with
  | zero => intro st; rfl
  | succ m ih =>
    intro st
    show (addEmptyN (addLine st [] NULL_STYLE) m).buffer.lines.length = _
    rw [ih, addLine_length]
    omega

lemma addStyledN_inv (s : StyleM) (n : Nat) : ∀ st : TState,
    Inv2 st → Inv2 (addStyledN st s n) := by
  induction n with
  | zero => intro st h; exact h
  | succ m ih => intro st h; exact ih _ (addLine_inv st _ _ h)

lemma padLines_inv (st : TState) (idx : Int) (h : Inv2 st) :
    Inv2 (padLines st idx) := addEmptyN_inv _ st h

lemma padLines_length (st : TState) (idx : Int) (h0 : 0 ≤ idx) :
    idx < ((padLines st idx).buffer.lines.length : Int) := by
  unfold padLines
  rw [addEmptyN_length]
  omega

lemma padLines_margin (st : TState) (idx : Int) :
    (padLines st idx).buffer.scroll_margin = st.buffer.scroll_margin := by
  unfold padLines
  generalize (idx + 1 - (st.buffer.lines.length : Int)).toNat = n
  induction n generalizing st with
  | zero => rfl
  | succ m ih =>
    show (addEmptyN (addLine st [] NULL_STYLE) m).buffer.scroll_margin = _
    rw [ih, addLine_margin]

lemma pyDelFrom_nonneg {α : Type} (l : List α) (i : Int) (h : 0 ≤ i) :
    pyDelFrom l i = l.take i.toNat := by
  simp [pyDelFrom, h]

/-- The rebuilt `line_to_fold` and `folded_lines` of `update_line` at a
valid nonnegative index restore the structural invariant for the updated
line list. -/
lemma rebuild_struct (lines2 : List LineRecord) (k : Nat)
    (hk : k ≤ lines2.length) :
    rebuildRange lines2 (intRange (k : Int) (lines2.length : Int))
        (prefixSums ((lines2.take k).map (·.folds.length)) 0)
        (((lines2.take k).map (·.folds)).flatten)
      = (prefixSums (lines2.map (·.folds.length)) 0,
          (lines2.map (·.folds)).flatten) := by
  rw [rebuildRange_eq_buildTail lines2 (lines2.length - k) k rfl hk,
    buildTail_inv (lines2.drop k) (lines2.take k), List.take_append_drop]

/-- Rebuilding `line_to_fold` and `folded_lines` from the prefix before a
rewritten line restores the buffer invariant, provided the new line's folds
carry nonnegative line numbers. -/
lemma BInv_update (b : BufferM) (lr : LineRecord) (mw : Nat) (idx : Int)
    (k : Nat) (hik : idx = (k : Int)) (hk : k < b.lines.length) (hb : BInv b)
    (hlr : ∀ f ∈ lr.folds, 0 ≤ f.line_no) :
    BInv { b with
      max_line_width := mw
      lines := b.lines.set k lr
      line_to_fold := (rebuildRange (b.lines.set k lr)
          (intRange idx (((b.lines.set k lr).length : Nat) : Int))
          (pyDelFrom b.line_to_fold idx)
          (b.folded_lines.take
            (0 + ((b.lines.map (·.folds.length)).take k).sum))).1
      folded_lines := (rebuildRange (b.lines.set k lr)
          (intRange idx (((b.lines.set k lr).length : Nat) : Int))
          (pyDelFrom b.line_to_fold idx)
          (b.folded_lines.take
            (0 + ((b.lines.map (·.folds.length)).take k).sum))).2 } := by
  obtain ⟨⟨hfl, hltf⟩, hok, hm⟩ := hb
  subst hik
  have htake : (b.lines.set k lr).take k = b.lines.take k := take_set_self _ _ _
  have hltf0 : pyDelFrom b.line_to_fold (k : Int)
      = prefixSums (((b.lines.set k lr).take k).map (·.folds.length)) 0 := by
    rw [pyDelFrom_nonneg _ _ (Int.natCast_nonneg k), Int.toNat_natCast, hltf,
      prefixSums_take, htake, List.map_take]
  have hfolded0 : b.folded_lines.take
        (0 + ((b.lines.map (·.folds.length)).take k).sum)
      = (((b.lines.set k lr).take k).map (·.folds)).flatten := by
    rw [Nat.zero_add, hfl, htake]
    have hmm : (b.lines.map (·.folds.length)).take k
        = (((b.lines.map (·.folds)).take k).map List.length) := by
      rw [List.map_take, List.map_map]
      rfl
    rw [hmm, flatten_take, List.map_take]
  have hrebuild := rebuild_struct (b.lines.set k lr) k
    (by rw [List.length_set]; omega)
  refine ⟨⟨?_, ?_⟩, ?_, hm⟩
  · show (rebuildRange (b.lines.set k lr) _ _ _).2
        = ((b.lines.set k lr).map (·.folds)).flatten
    rw [hltf0, hfolded0, hrebuild]
  · show (rebuildRange (b.lines.set k lr) _ _ _).1
        = prefixSums ((b.lines.set k lr).map (·.folds.length)) 0
    rw [hltf0, hfolded0, hrebuild]
  · intro r hr f hf
    rcases List.mem_or_eq_of_mem_set hr with h1 | h1
    · exact hok r h1 f hf
    · subst h1
      exact hlr f hf

lemma updateLineCore_inv (st : TState) (idx : Int) (c : List Char)
    (h0 : 0 ≤ idx) (hlt : idx < (st.buffer.lines.length : Int)) (h : Inv2 st) :
    Inv2 (updateLineCore st idx c) := by
  have hb := BInv_active st h
  obtain ⟨⟨hfl, hltf⟩, hok, hm⟩ := hb
  have hlen_ltf : st.buffer.line_to_fold.length = st.buffer.lines.length := by
    rw [hltf, prefixSums_length, List.length_map]
  have hkl : idx.toNat < st.buffer.lines.length := by omega
  simp only [updateLineCore, setBuffer_buffer]
  rw [pyIdxNorm_of_nonneg _ _ h0 (by simpa using hlt)]
  simp only []
  have hidx2 : pyIdx
      (st.setBuffer { st.buffer with
        max_line_width :=
          max (expandTabs c).length st.buffer.max_line_width }).advanceUpdates.1.buffer.line_to_fold
      idx = some (0 + ((st.buffer.lines.map (·.folds.length)).take idx.toNat).sum) := by
    rw [advance_buffer, setBuffer_buffer]
    show pyIdx st.buffer.line_to_fold idx = _
    rw [pyIdx_nonneg _ _ h0 (by omega), List.get?_eq_getElem?, hltf,
      prefixSums_get _ _ _ (by simpa [List.length_map] using hkl)]
  rw [hidx2]
  simp only []
  apply inv2_setBuffer
  · exact inv2_advance _ (inv2_setBuffer _ _ h ⟨⟨hfl, hltf⟩, hok, hm⟩)
  · rw [advance_buffer, setBuffer_buffer]
    refine BInv_update _ _ _ _ idx.toNat ?_ ?_ ?_ ?_
    · omega
    · exact hkl
    · exact ⟨⟨hfl, hltf⟩, hok, hm⟩
    · exact foldLineP_nonneg _ _ _ h0 _ _

lemma updateLine_inv (st : TState) (idx : Int) (c : List Char) (h0 : 0 ≤ idx)
    (h : Inv2 st) : Inv2 (updateLine st idx c) := by
  unfold updateLine
  exact updateLineCore_inv _ _ _ h0 (padLines_length st idx h0) (padLines_inv st idx h)

lemma BInv_clearBuf (b : BufferM) (u : Nat) (hm : marginOK b) :
    BInv (clearBuf b u) := by
  refine ⟨⟨rfl, rfl⟩, ?_, hm⟩
  intro r hr
  exact absurd hr (List.not_mem_nil r)

/-- Overwriting one line record without changing its folds preserves the
buffer invariant. -/
lemma BInv_set_same_folds (b : BufferM) (eff : Nat) (lr' : LineRecord)
    (hfolds : lr'.folds = ((b.lines.get? eff).getD defaultRecord).folds)
    (hb : BInv b) : BInv { b with lines := b.lines.set eff lr' } := by
  obtain ⟨⟨hfl, hltf⟩, hok, hm⟩ := hb
  by_cases hlen : eff < b.lines.length
  · have hget : b.lines.get? eff = some b.lines[eff] := by
      rw [List.get?_eq_getElem?]
      exact List.getElem?_eq_getElem hlen
    rw [hget] at hfolds
    simp only [Option.getD_some] at hfolds
    have hmapf : (b.lines.set eff lr').map (·.folds) = b.lines.map (·.folds) := by
      rw [List.map_set, hfolds]
      refine set_of_getElem_eq _ _ _ ?_
      rw [List.getElem?_map, List.getElem?_eq_getElem hlen]
      rfl
    have hmapl : (b.lines.set eff lr').map (·.folds.length)
        = b.lines.map (·.folds.length) := by
      rw [List.map_set, hfolds]
      refine set_of_getElem_eq _ _ _ ?_
      rw [List.getElem?_map, List.getElem?_eq_getElem hlen]
      rfl
    refine ⟨⟨?_, ?_⟩, ?_, hm⟩
    · show b.folded_lines = ((b.lines.set eff lr').map (·.folds)).flatten
      rw [hmapf]; exact hfl
    · show b.line_to_fold = prefixSums ((b.lines.set eff lr').map (·.folds.length)) 0
      rw [hmapl]; exact hltf
    · intro r hr f hf
      rcases List.mem_or_eq_of_mem_set hr with h1 | h1
      · exact hok r h1 f hf
      · subst h1
        rw [hfolds] at hf
        exact hok _ (List.getElem_mem hlen) f hf
  · have hset : b.lines.set eff lr' = b.lines :=
      List.set_eq_of_length_le (by omega)
    rw [hset]
    exact ⟨⟨hfl, hltf⟩, hok, hm⟩

lemma lineUpdated_inv (st : TState) (n : Int) (h : Inv2 st) :
    Inv2 (lineUpdated st n) := by
  simp only [lineUpdated]
  rcases hx : pyIdxNorm st.advanceUpdates.1.buffer.lines.length n with _ | eff
  · exact inv2_advance st h
  · exact inv2_setBuffer _ _ (inv2_advance st h)
      (by rw [advance_buffer]
          exact BInv_set_same_folds _ _ _ rfl (BInv_active st h))

/-- Replacing the DEC state chart does not touch the buffers. -/
lemma inv2_setDec (st : TState) (d : DECStateM) (h : Inv2 st) :
    Inv2 { st with dec_state := d } := h

lemma inv2_setUpdates (st : TState) (u : Nat) (h : Inv2 st) :
    Inv2 (st.setUpdates u) := h

/-- In a buffer satisfying the invariant every stored fold has a
nonnegative line number. -/
lemma folded_nonneg (b : BufferM) (hb : BInv b) :
    ∀ f ∈ b.folded_lines, 0 ≤ f.line_no := by
  intro f hf
  obtain ⟨⟨hfl, _⟩, hok, _⟩ := hb
  rw [hfl, List.mem_flatten] at hf
  obtain ⟨l, hl, hfl2⟩ := hf
  rw [List.mem_map] at hl
  obtain ⟨lr, hlr, rfl⟩ := hl
  exact hok lr hlr f hfl2

lemma intRangeGo_mem (x : Int) : ∀ (k : Nat) (a : Int),
    x ∈ intRangeGo a k → a ≤ x := by
  intro k
  induction k with
  | zero => intro a hx; simp [intRangeGo] at hx
  | succ m ih =>
    intro a hx
    simp only [intRangeGo, List.mem_cons] at hx
    rcases hx with h1 | h1
    · omega
    · have := ih (a + 1) h1; omega

/-- Folding a list of nonnegative line numbers through an
invariant-preserving step preserves the invariant. -/
lemma foldl_inv (f : TState → Int → TState)
    (hf : ∀ (st : TState) (x : Int), 0 ≤ x → Inv2 st → Inv2 (f st x)) :
    ∀ (l : List Int) (st : TState), (∀ x ∈ l, 0 ≤ x) → Inv2 st →
      Inv2 (l.foldl f st) := by
  intro l
  induction l with
  | nil => intro st _ h; exact h
  | cons x rest ih =>
    intro st hl h
    exact ih _ (fun y hy => hl y (List.mem_cons_of_mem _ hy))
      (hf st x (hl x (List.mem_cons_self _ _)) h)

lemma scrollUpStep_inv (bm lines : Int) (acc : TState) (x : Int) (hx : 0 ≤ x)
    (h : Inv2 acc) : Inv2 (scrollUpStep bm lines acc x) :=
  updateLine_inv _ _ _ hx h

lemma scrollDownStep_inv (mt lines : Int) (acc : TState) (x : Int) (hx : 0 ≤ x)
    (h : Inv2 acc) : Inv2 (scrollDownStep mt lines acc x) :=
  updateLine_inv _ _ _ hx h

lemma scrollBuffer_inv (st : TState) (d l : Int) (h : Inv2 st) :
    Inv2 (scrollBuffer st d l) := by
  have hm : (0 : Int) ≤ (getLineRange st.buffer.scroll_margin st.height).1 :=
    (BInv_active st h).2.2
  unfold scrollBuffer
  split
  · refine foldl_inv _ (fun acc x hx hi => scrollUpStep_inv _ _ _ _ hx hi) _ _ ?_ h
    intro x hx
    have := intRangeGo_mem x _ _ hx
    omega
  · refine foldl_inv _ (fun acc x hx hi => scrollDownStep_inv _ _ _ _ hx hi) _ _ ?_ h
    intro x hx
    rw [List.mem_reverse] at hx
    have := intRangeGo_mem x _ _ hx
    omega

lemma ensureGo_inv : ∀ (fuel : Nat) (st : TState), Inv2 st →
    Inv2 (ensureGo st fuel) := by
  intro fuel
  induction fuel with
  | zero => intro st h; exact h
  | succ m ih =>
    intro st h
    simp only [ensureGo]
    split
    · exact ih _ (addLine_inv st _ _ h)
    · exact h

/-- The reflow loop's folded-lines output is the input extended by the
concatenated folds of the rebuilt records. -/
lemma reflowGo_folded (aw : Bool) (w : Nat) :
    ∀ (ls : List LineRecord) (n u : Nat) (ltf : List Nat)
      (folded : List LineFold),
      (reflowGo aw w ls n u ltf folded).2.2.1
        = folded ++ ((reflowGo aw w ls n u ltf folded).1.map (·.folds)).flatten := by
  intro ls
  induction ls with
  | nil => intro n u ltf folded; simp [reflowGo]
  | cons lr rest ih =>
    intro n u ltf folded
    simp only [reflowGo]
    rw [ih]
    simp [List.append_assoc]

/-- The reflow loop's `line_to_fold` output is the prefix sums of the
fold counts, provided the inputs are consistent. -/
lemma reflowGo_ltf (aw : Bool) (w : Nat) :
    ∀ (ls : List LineRecord) (n u : Nat) (ns : List Nat)
      (folded : List LineFold), folded.length = ns.sum →
      (reflowGo aw w ls n u (prefixSums ns 0) folded).2.1
        = prefixSums
            (ns ++ ((reflowGo aw w ls n u (prefixSums ns 0) folded).1.map
              (·.folds.length))) 0 := by
  intro ls
  induction ls with
  | nil => intro n u ns folded hlen; simp [reflowGo]
  | cons lr rest ih =>
    intro n u ns folded hlen
    simp only [reflowGo]
    have h1 : prefixSums ns 0 ++ [folded.length]
        = prefixSums
            (ns ++ [(foldLineP aw u (n : Int) (expandTabs lr.content) w).length]) 0 := by
      rw [prefixSums_snoc]
      simp [hlen]
    rw [h1]
    have h2 := ih (n + 1) (u + 1)
      (ns ++ [(foldLineP aw u (n : Int) (expandTabs lr.content) w).length])
      (folded ++ foldLineP aw u (n : Int) (expandTabs lr.content) w)
      (by simp [hlen])
    rw [h2]
    simp [List.append_assoc]

lemma reflowGo_foldsOK (aw : Bool) (w : Nat) :
    ∀ (ls : List LineRecord) (n u : Nat) (ltf : List Nat)
      (folded : List LineFold) (lr : LineRecord),
      lr ∈ (reflowGo aw w ls n u ltf folded).1 → ∀ f ∈ lr.folds, 0 ≤ f.line_no := by
  intro ls
  induction ls with
  | nil => intro n u ltf folded lr hlr; simp [reflowGo] at hlr
  | cons lr0 rest ih =>
    intro n u ltf folded lr hlr
    simp only [reflowGo, List.mem_cons] at hlr
    rcases hlr with h1 | h1
    · subst h1
      intro f hf
      exact foldLineP_nonneg _ _ _ (Int.natCast_nonneg n) _ _ f hf
    · exact ih _ _ _ _ lr h1

lemma reflowCore_inv (st : TState) (h : Inv2 st) : Inv2 (reflowCore st) := by
  obtain ⟨⟨hfl, hltf⟩, hok, hm⟩ := BInv_active st h
  have hB : BInv { st.buffer with
      lines := (reflowGo st.auto_wrap st.width st.buffer.lines 0 st.updates [] []).1
      line_to_fold := (reflowGo st.auto_wrap st.width st.buffer.lines 0 st.updates [] []).2.1
      folded_lines :=
        (reflowGo st.auto_wrap st.width st.buffer.lines 0 st.updates [] []).2.2.1 } := by
    refine ⟨⟨?_, ?_⟩, ?_, hm⟩
    · show (reflowGo st.auto_wrap st.width st.buffer.lines 0 st.updates [] []).2.2.1
        = (((reflowGo st.auto_wrap st.width st.buffer.lines 0 st.updates [] []).1).map
            (·.folds)).flatten
      rw [reflowGo_folded]
      rfl
    · show (reflowGo st.auto_wrap st.width st.buffer.lines 0 st.updates [] []).2.1
        = prefixSums
            (((reflowGo st.auto_wrap st.width st.buffer.lines 0 st.updates [] []).1).map
              (·.folds.length)) 0
      have h1 := reflowGo_ltf st.auto_wrap st.width st.buffer.lines 0 st.updates [] [] rfl
      simpa [prefixSums] using h1
    · intro r hr f hf
      exact reflowGo_foldsOK _ _ _ _ _ _ _ r hr f hf
  simp only [reflowCore, setUpdates_buffer, setBuffer_buffer]
  split
  · exact inv2_setBuffer _ _ (inv2_setUpdates _ _ (inv2_setBuffer _ _ h hB)) hB
  · exact inv2_setBuffer _ _ (inv2_setUpdates _ _ (inv2_setBuffer _ _ h hB)) hB

lemma reflow_inv (st : TState) (h : Inv2 st) : Inv2 (reflow st) := by
  unfold reflow
  split
  · exact h
  · exact reflowCore_inv st h

lemma cursorText_inv (st : TState) (cc : CursorCmd) (eff : Nat) (lineNo : Int)
    (content : List Char) (hn : 0 ≤ lineNo) (h : Inv2 st) :
    Inv2 (cursorText st cc eff lineNo content) := by
  simp only [cursorText]
  apply updateLine_inv _ _ _ hn
  split
  · exact inv2_setBuffer _ _ h (BInv_set_same_folds _ _ _ rfl (BInv_active st h))
  · exact h

lemma cursorMoves_inv (st : TState) (cc : CursorCmd) (h : Inv2 st) :
    Inv2 (cursorMoves st cc) := by
  simp only [cursorMoves]
  split
  · exact lineUpdated_inv _ _
      (lineUpdated_inv _ _ (inv2_setBuffer _ _ h (BInv_active st h)))
  · exact inv2_setBuffer _ _ h (BInv_active st h)

lemma handleCursor_inv (st0 : TState) (cc : CursorCmd) (h : Inv2 st0) :
    Inv2 (handleCursor st0 cc) := by
  have h1 : Inv2 (ensureCursor st0) := ensureGo_inv _ _ h
  simp only [handleCursor]
  split
  next st2 heq =>
    split at heq
    · split at heq
      · split at heq
        · cases heq
          exact scrollBuffer_inv _ _ _ h1
        · split at heq
          · cases heq
            exact scrollBuffer_inv _ _ _ h1
          · exact Option.noConfusion heq
      · exact Option.noConfusion heq
    · exact Option.noConfusion heq
  next heq =>
    split
    · exact h1
    next eff heq2 =>
      have hn : (0 : Int) ≤ (((ensureCursor st0).buffer.folded_lines.get?
          (ensureCursor st0).buffer.cursor_line).getD defaultFold).line_no := by
        rcases hg : (ensureCursor st0).buffer.folded_lines.get?
            (ensureCursor st0).buffer.cursor_line with _ | f
        · simp [defaultFold]
        · simp only [hg, Option.getD_some]
          exact folded_nonneg _ (BInv_active _ h1) f (List.get?_mem hg)
      split
      · apply cursorMoves_inv
        split
        · exact inv2_setBuffer _ _ h1
            (BInv_set_same_folds _ _ _ rfl (BInv_active _ h1))
        · exact h1
      next text heq3 =>
        split
        · split
          · exact inv2_setBuffer _ _ h1
              (BInv_set_same_folds _ _ _ rfl (BInv_active _ h1))
          · exact h1
        next dec2 content heq4 =>
          apply cursorMoves_inv
          apply cursorText_inv _ _ _ _ _ hn
          refine inv2_setDec _ _ ?_
          split
          · exact inv2_setBuffer _ _ h1
              (BInv_set_same_folds _ _ _ rfl (BInv_active _ h1))
          · exact h1

lemma handleCmd_inv (st : TState) (cmd : Cmd) (hok : opOK (.handleOp cmd))
    (h : Inv2 st) : Inv2 (handleCmd st cmd) := by
  cases cmd with
  | style s => exact h
  | cursor cc => exact handleCursor_inv st cc h
  | features f => exact h
  | clear k =>
    cases k with
    | screen =>
      refine addStyledN_inv _ _ _ ?_
      refine inv2_setBuffer _ _ (inv2_advance st h) ?_
      rw [advance_buffer]
      exact BInv_clearBuf _ _ (BInv_active st h).2.2
    | cursorToEnd => exact h
    | cursorToBeginning => exact h
    | scrollback => exact h
  | scrollMargin top bottom =>
    have hb1 : BInv { st.buffer with scroll_margin := (top, bottom) } := by
      obtain ⟨⟨hfl, hltf⟩, hokf, _⟩ := BInv_active st h
      exact ⟨⟨hfl, hltf⟩, hokf, hok⟩
    have h2 := lineUpdated_inv _
      (((st.setBuffer { st.buffer with
          scroll_margin := (top, bottom) }).buffer.cursor_line : Int))
      (inv2_setBuffer _ _ h hb1)
    delta handleCmd
    apply lineUpdated_inv
    apply inv2_setBuffer _ _ h2
    exact BInv_active _ h2
  | scroll direction lines => exact scrollBuffer_inv _ _ _ h
  | charset dec inv => exact h
  | workingDir p => exact h
  | mouse m => exact h
  | newline =>
    delta handleCmd
    cases halt : st.alternate_screen
    · exact handleCursor_inv _ _ h
    · exact handleCursor_inv _ _ h
  | err => exact h

lemma applyOp_inv (st : TState) (op : EngineOp) (hop : opOK op) (h : Inv2 st) :
    Inv2 (applyOp st op) := by
  cases op with
  | addLineOp c s => exact addLine_inv st c s h
  | updateLineOp idx c => exact updateLine_inv st idx c hop h
  | clearOp =>
    refine inv2_setBuffer _ _ (inv2_advance st h) ?_
    rw [advance_buffer]
    exact BInv_clearBuf _ _ (BInv_active st h).2.2
  | reflowOp => exact reflow_inv st h
  | handleOp cmd => exact handleCmd_inv st cmd hop h

lemma BInv_empty : BInv emptyBuffer := by decide

lemma initT_inv (w h : Nat) : Inv2 (initT w h) := ⟨BInv_empty, BInv_empty⟩

/-- C2 counterexample: the invariant is not maintained over every
operation sequence.  After one `add_line`, the commands decoded from
`ESC[0;0r` (a scroll margin whose stored top is `-1`) and `ESC[1S` (a
scroll inside that margin, which calls `update_line(-1)`) leave
`folded_lines` different from the concatenation of the per-line folds of
the active (scrollback) buffer. -/
theorem fold_invariant_counterexample :
    ¬ StructInv ((badOps.foldl applyOp (initT 80 24)).scrollback_buffer) := by
  decide

/-- C2 (amended): under every sequence of engine operations in which
`update_line` is not handed a negative index and no scroll margin is set
with a negative top — every operation the decoder produces from
well-formed input satisfies this — both buffers of the resulting state
satisfy the claimed invariant: `folded_lines` is exactly the in-order
concatenation of every `lines[i].folds`, and `line_to_fold` holds the
prefix fold counts (entry `i` is the total fold count of lines `0..i-1`).
The unrestricted claim is refuted by the counterexample above. -/
theorem buffer_fold_invariant (w h : Nat) (ops : List EngineOp)
    (hops : ∀ op ∈ ops, opOK op) :
    StructInv ((ops.foldl applyOp (initT w h)).scrollback_buffer)
    ∧ StructInv ((ops.foldl applyOp (initT w h)).alternate_buffer) := by
  have key : ∀ (l : List EngineOp) (st : TState), (∀ op ∈ l, opOK op) →
      Inv2 st → Inv2 (l.foldl applyOp st) := by
    intro l
    induction l with
    | nil => intro st _ hst; exact hst
    | cons op rest ih =>
      intro st hl hst
      exact ih _ (fun x hx => hl x (List.mem_cons_of_mem _ hx))
        (applyOp_inv st op (hl op (List.mem_cons_self _ _)) hst)
  have h2 := key ops (initT w h) hops (initT_inv w h)
  exact ⟨h2.1.1, h2.2.1⟩

theorem buffer_fold_invariant_witness :
    (∀ op ∈ ([.addLineOp "hello".toList NULL_STYLE,
        .updateLineOp 0 "hi\tthere".toList,
        .handleOp (.scrollMargin (some 1) (some 2)),
        .handleOp (.scroll (-1) 1), .reflowOp, .clearOp] : List EngineOp),
      opOK op)
    ∧ (StructInv ((([.addLineOp "hello".toList NULL_STYLE,
          .updateLineOp 0 "hi\tthere".toList,
          .handleOp (.scrollMargin (some 1) (some 2)),
          .handleOp (.scroll (-1) 1), .reflowOp, .clearOp] :
            List EngineOp).foldl applyOp (initT 5 4)).scrollback_buffer)
        ∧ StructInv ((([.addLineOp "hello".toList NULL_STYLE,
            .updateLineOp 0 "hi\tthere".toList,
            .handleOp (.scrollMargin (some 1) (some 2)),
            .handleOp (.scroll (-1) 1), .reflowOp, .clearOp] :
              List EngineOp).foldl applyOp (initT 5 4)).alternate_buffer)) :=
  ⟨by decide, buffer_fold_invariant 5 4 _ (by decide)⟩

end Toad
